import Mathlib

/-!
Verification of the blaude worker-lifecycle supervisor (src/runner.py,
src/notifier.py) against its natural-language specification.

The registry (`Runner.workers`, a Python dict from worker name to a record
dict) is modelled as an ordered association list `List (String × Worker)`;
Python dict semantics (unique keys, insertion order, in-place value update)
are mirrored by `lookup` / `setw` / `delKey` below.  Wall-clock readings
(`time.time()`) and outcomes of external calls (process spawn results,
process liveness) are passed in as explicit parameters, so every operation
is a pure function from an input state to an output state.
-/

namespace Blaude

/-- A worker record, mirroring the dict stored at `self.workers[name]` in
`Runner.run` (runner.py lines 126-137).  `budget` is a float in Python but
is only ever stored, never computed with, so it is modelled as a rational.
Times are modelled as natural-number clock readings. -/
structure Worker where
  pid : Option Nat
  session_id : String
  model : String
  budget : Rat
  notify_target : String
  prompt : String
  start_time : Nat
  status : String
  log_file : String
  background : Bool
  end_time : Option Nat
  deriving DecidableEq, Repr

/-- Registry: the `self.workers` dict, as an ordered association list. -/
abbrev Registry := List (String × Worker)

/-- Python `self.workers.get(name)` / `name in self.workers`: first match. -/
def lookup : Registry → String → Option Worker
  | [], _ => none
  | (m, v) :: rest, n => if m = n then some v else lookup rest n

/-- Python `self.workers[name] = w`: update the value in place if the key
is present (keeping its position), otherwise append. -/
def setw : Registry → String → Worker → Registry
  | [], n, w => [(n, w)]
  | (m, v) :: rest, n, w =>
      if m = n then (n, w) :: rest else (m, v) :: setw rest n w

/-- Python `del self.workers[name]`. -/
def delKey (ws : Registry) (n : String) : Registry :=
  ws.filter (fun e => e.1 ≠ n)

/-- Dict keys are pairwise distinct. -/
def keysNodup (ws : Registry) : Prop := (ws.map Prod.fst).Nodup

/-- Python truthiness of `worker.get("pid")`: `None` and `0` are falsy. -/
def pyTruthy (p : Option Nat) : Bool := p.getD 0 ≠ 0

/-!
The log summarizer (Runner._extract_summary, runner.py lines 251-280) and
the dispatcher formatting step (Notifier._format_completion_message,
notifier.py lines 55-73).  Text is modelled as `List Char` (Python
strings count code points, as `List Char` does).  `json.loads` is
modelled by a fuel-indexed recursive-descent JSON parser over the same
grammar (values null / true / false / NaN / Infinity / -Infinity /
number / string / array / object, ASCII whitespace, standard string
escapes); a parse failure models `json.JSONDecodeError`.
-/

/-- The opening brace character, U+007B. -/
def lbrace : Char := Char.ofNat 123

/-- The closing brace character, U+007D. -/
def rbrace : Char := Char.ofNat 125

/-- The apostrophe character, U+0027, used inside CPython error texts. -/
def apos : Char := Char.ofNat 39

/-- Python str.strip() whitespace test (ASCII subset). -/
def pyIsSpace (c : Char) : Bool :=
  c = ' ' || c = '\t' || c = '\n' || c = '\r' ||
    c = Char.ofNat 11 || c = Char.ofNat 12

/-- Python str.strip(): drop whitespace from both ends. -/
def pyStrip (s : List Char) : List Char :=
  ((s.dropWhile pyIsSpace).reverse.dropWhile pyIsSpace).reverse

/-- Python content.split(chr(10)): split on newline, keeping empty
pieces; the result is never empty. -/
def pySplitNl : List Char → List (List Char)
  | [] => [[]]
  | c :: rest =>
    if c = '\n' then [] :: pySplitNl rest
    else
      match pySplitNl rest with
      | [] => [[c]]
      | l :: ls => (c :: l) :: ls

/-- Python `pat in text` for strings: substring containment. -/
def hasSubstr : List Char → List Char → Bool
  | [], pat => pat.isPrefixOf []
  | c :: rest, pat => pat.isPrefixOf (c :: rest) || hasSubstr rest pat

/-- Python l[-n:]: the last n elements (all of them when fewer). -/
def lastN (n : Nat) (xs : List (List Char)) : List (List Char) :=
  xs.drop (xs.length - n)

/-- Python chr(10).join. -/
def joinNl : List (List Char) → List Char
  | [] => []
  | [l] => l
  | l :: rest => l ++ '\n' :: joinNl rest

/-- JSON values as produced by json.loads.  Numbers keep their raw
spelling: the summarizer never computes with them, it only needs their
Python type (int or float) for error texts. -/
inductive JVal where
  | jnull
  | jbool (b : Bool)
  | jnum (raw : List Char)
  | jstr (s : List Char)
  | jarr (elems : List JVal)
  | jobj (fields : List (List Char × JVal))

/-- JSON inter-token whitespace. -/
def jsonWs (c : Char) : Bool := c = ' ' || c = '\t' || c = '\n' || c = '\r'

def skipWs (cs : List Char) : List Char := cs.dropWhile jsonWs

def parseHexDigit (c : Char) : Option Nat :=
  if '0' ≤ c ∧ c ≤ '9' then some (c.toNat - 48)
  else if 'a' ≤ c ∧ c ≤ 'f' then some (c.toNat - 87)
  else if 'A' ≤ c ∧ c ≤ 'F' then some (c.toNat - 55)
  else none

/-- Single-character JSON string escapes. -/
def escChar (c : Char) : Option Char :=
  if c = '"' then some '"'
  else if c = '\\' then some '\\'
  else if c = '/' then some '/'
  else if c = 'b' then some (Char.ofNat 8)
  else if c = 'f' then some (Char.ofNat 12)
  else if c = 'n' then some '\n'
  else if c = 'r' then some '\r'
  else if c = 't' then some '\t'
  else none

/-- Parse a JSON string body after the opening quote; returns the decoded
content and the input remaining after the closing quote. -/
def parseStringBody : Nat → List Char → Option (List Char × List Char)
  | 0, _ => none
  | fuel + 1, cs =>
    match cs with
    | [] => none
    | c :: rest =>
      if c = '"' then some ([], rest)
      else if c = '\\' then
        match rest with
        | [] => none
        | e :: rest1 =>
          if e = 'u' then
            match rest1 with
            | c1 :: c2 :: c3 :: c4 :: rest2 =>
              match parseHexDigit c1, parseHexDigit c2, parseHexDigit c3,
                  parseHexDigit c4 with
              | some h1, some h2, some h3, some h4 =>
                (parseStringBody fuel rest2).map
                  (fun pr => (Char.ofNat (((h1 * 16 + h2) * 16 + h3) * 16 + h4)
                    :: pr.1, pr.2))
              | _, _, _, _ => none
            | _ => none
          else
            match escChar e with
            | some ec =>
              (parseStringBody fuel rest1).map (fun pr => (ec :: pr.1, pr.2))
            | none => none
      else if c.toNat < 32 then none
      else (parseStringBody fuel rest).map (fun pr => (c :: pr.1, pr.2))

/-- Parse a JSON number (sign, integer part without leading zeros,
optional fraction, optional exponent); returns its raw spelling and the
rest of the input. -/
def parseNumber (cs : List Char) : Option (List Char × List Char) :=
  let sign : List Char × List Char :=
    match cs with
    | '-' :: cs1 => (['-'], cs1)
    | _ => ([], cs)
  let digits := sign.2.takeWhile Char.isDigit
  if digits = [] then none
  else if digits.head? = some '0' ∧ 1 < digits.length then none
  else
    let rest1 := sign.2.drop digits.length
    let fracState : Option (List Char × List Char) :=
      match rest1 with
      | '.' :: r2 =>
        let fd := r2.takeWhile Char.isDigit
        if fd = [] then none else some ('.' :: fd, r2.drop fd.length)
      | _ => some ([], rest1)
    match fracState with
    | none => none
    | some (frac, rest2) =>
      let expState : Option (List Char × List Char) :=
        match rest2 with
        | e :: r3 =>
          if e = 'e' ∨ e = 'E' then
            let signExp : List Char × List Char :=
              match r3 with
              | s :: r4 => if s = '+' ∨ s = '-' then ([s], r4) else ([], r3)
              | [] => ([], r3)
            let ed := signExp.2.takeWhile Char.isDigit
            if ed = [] then none
            else some (e :: signExp.1 ++ ed, signExp.2.drop ed.length)
          else some ([], rest2)
        | [] => some ([], rest2)
      match expState with
      | none => none
      | some (ex, rest3) => some (sign.1 ++ digits ++ frac ++ ex, rest3)

/-- Python dict insertion while building a JSON object: a repeated key
overwrites the stored value. -/
def objInsert : List (List Char × JVal) → List Char → JVal →
    List (List Char × JVal)
  | [], k, v => [(k, v)]
  | (k1, v1) :: rest, k, v =>
    if k1 = k then (k, v) :: rest else (k1, v1) :: objInsert rest k v

mutual

def parseVal : Nat → List Char → Option (JVal × List Char)
  | 0, _ => none
  | fuel + 1, cs =>
    match skipWs cs with
    | [] => none
    | c :: rest =>
      if c = lbrace then
        match skipWs rest with
        | c1 :: rest1 =>
          if c1 = rbrace then some (.jobj [], rest1)
          else parseObjFields fuel (c1 :: rest1) []
        | [] => none
      else if c = '[' then
        match skipWs rest with
        | ']' :: rest1 => some (.jarr [], rest1)
        | cs1 => parseArrElems fuel cs1 []
      else if c = '"' then
        (parseStringBody (fuel + 1) rest).map (fun pr => (.jstr pr.1, pr.2))
      else if c = 't' then
        if ("rue".data).isPrefixOf rest then some (.jbool true, rest.drop 3)
        else none
      else if c = 'f' then
        if ("alse".data).isPrefixOf rest then some (.jbool false, rest.drop 4)
        else none
      else if c = 'n' then
        if ("ull".data).isPrefixOf rest then some (.jnull, rest.drop 3)
        else none
      else if c = 'N' then
        if ("aN".data).isPrefixOf rest then some (.jnum ("NaN".data), rest.drop 2)
        else none
      else if c = 'I' then
        if ("nfinity".data).isPrefixOf rest then
          some (.jnum ("Infinity".data), rest.drop 7)
        else none
      else if c = '-' ∧ ("Infinity".data).isPrefixOf rest then
        some (.jnum ("-Infinity".data), rest.drop 8)
      else
        (parseNumber (c :: rest)).map (fun pr => (.jnum pr.1, pr.2))

def parseObjFields : Nat → List Char →
    List (List Char × JVal) → Option (JVal × List Char)
  | 0, _, _ => none
  | fuel + 1, cs, acc =>
    match skipWs cs with
    | '"' :: rest =>
      match parseStringBody (fuel + 1) rest with
      | none => none
      | some (key, rest1) =>
        match skipWs rest1 with
        | ':' :: rest2 =>
          match parseVal fuel rest2 with
          | none => none
          | some (v, rest3) =>
            match skipWs rest3 with
            | ',' :: rest4 => parseObjFields fuel rest4 (objInsert acc key v)
            | c :: rest4 =>
              if c = rbrace then some (.jobj (objInsert acc key v), rest4)
              else none
            | [] => none
        | _ => none
    | _ => none

def parseArrElems : Nat → List Char → List JVal → Option (JVal × List Char)
  | 0, _, _ => none
  | fuel + 1, cs, acc =>
    match parseVal fuel cs with
    | none => none
    | some (v, rest) =>
      match skipWs rest with
      | ',' :: rest1 => parseArrElems fuel rest1 (acc ++ [v])
      | ']' :: rest1 => some (.jarr (acc ++ [v]), rest1)
      | _ => none

end

/-- json.loads: parse one JSON document; trailing whitespace only
("Extra data" otherwise); `none` models json.JSONDecodeError. -/
def jsonLoads (cs : List Char) : Option JVal :=
  match parseVal (cs.length + 1) cs with
  | none => none
  | some (v, rest) => if skipWs rest = [] then some v else none

/-- The substring the scanner looks for before attempting a parse
(runner.py line 264). -/
def resultMarker : List Char := ("\"result\":").data

/-- The placeholder for a missing log file (runner.py line 256). -/
def noOutput : List Char := ("No output captured").data

/-- The prefix of the outer exception handler message
(runner.py line 280). -/
def errPrefix : List Char := ("Error reading output: ").data

def ellipsis : List Char := ("...").data

/-- CPython type name of a parsed JSON number: floats come from
fractions, exponents and the non-finite literals. -/
def numTypeName (raw : List Char) : List Char :=
  if raw.any (fun c => c = '.' || c = 'e' || c = 'E') ||
      raw = ("NaN").data || raw = ("Infinity").data || raw = ("-Infinity").data
  then ("float").data else ("int").data

/-- CPython message of `len(x)` on a value with no len. -/
def lenErr (tyName : List Char) : List Char :=
  ("object of type ").data ++ apos :: tyName ++ apos :: (" has no len()").data

/-- CPython message of `x in y` for non-iterable y. -/
def notIterableErr (tyName : List Char) : List Char :=
  ("argument of type ").data ++ apos :: tyName ++
    apos :: (" is not iterable").data

/-- CPython message of subscripting a string with a string. -/
def strIndexErr : List Char := ("string indices must be integers").data

/-- CPython message of subscripting a list with a string. -/
def listIndexErr : List Char :=
  ("list indices must be integers or slices, not str").data

/-- CPython message of `list + str`. -/
def concatListErr : List Char :=
  ("can only concatenate list (not \"str\") to list").data

/-- CPython message of slicing... dict[:300] is fine, but a dict result
longer than 300 is sliced as `result[:300]`, which raises since slices
are unhashable dict keys. -/
def sliceDictErr : List Char := ("unhashable type: ").data ++
  apos :: ("slice").data ++ [apos]

/-- Python `x == "result"` inside `"result" in data` for a list: string
equality against each element, False for non-strings. -/
def isResultStr (v : JVal) : Bool :=
  match v with
  | .jstr s => s = ("result").data
  | _ => false

/-- Python `"result" in data` after json.loads: key membership for a
dict, substring for a str, element equality for a list, TypeError
otherwise. -/
def pyInResult : JVal → Except (List Char) Bool
  | .jobj fields => .ok (fields.any (fun f => f.1 = ("result").data))
  | .jstr s => .ok (hasSubstr s (("result").data))
  | .jarr xs => .ok (xs.any isResultStr)
  | .jnum raw => .error (notIterableErr (numTypeName raw))
  | .jbool _ => .error (notIterableErr (("bool").data))
  | .jnull => .error (notIterableErr (("NoneType").data))

/-- First binding of a key in a parsed object (keys are unique, see
objInsert). -/
def objGet : List (List Char × JVal) → List Char → Option JVal
  | [], _ => none
  | (k, v) :: rest, key => if k = key then some v else objGet rest key

/-- Python `data["result"]` once `"result" in data` was true. -/
def getResultValue : JVal → Except (List Char) JVal
  | .jobj fields =>
    match objGet fields (("result").data) with
    | some v => .ok v
    | none => .error (("KeyError").data)
  | .jstr _ => .error strIndexErr
  | .jarr _ => .error listIndexErr
  | .jnum raw => .error (notIterableErr (numTypeName raw))
  | .jbool _ => .error (notIterableErr (("bool").data))
  | .jnull => .error (notIterableErr (("NoneType").data))

/-- What the summarizer yields: a Python str, or (for a JSON list or
object result of length at most 300 returned unchanged) a non-string
Python object that the dispatcher will choke on. -/
inductive PySummary where
  | str (s : List Char)
  | nonStr (v : JVal)

/-- Outcome of one line of the scanning loop (runner.py lines 263-272):
skip means the loop continues (marker absent, JSONDecodeError, or
`"result" in data` false); ret means `return` fired inside the try;
err means an uncaught exception propagates to the outer handler. -/
inductive ScanOut where
  | skip
  | ret (s : PySummary)
  | err (msg : List Char)

/-- One iteration of `for line in reversed(lines)` (runner.py lines
263-272), including the Python-level type errors of `"result" in data`,
`data["result"]`, `len(result)`, `result[:300] + "..."` on each possible
JSON value shape. -/
def scanLine (line : List Char) : ScanOut :=
  if hasSubstr line resultMarker then
    match jsonLoads line with
    | none => .skip
    | some data =>
      match pyInResult data with
      | .error msg => .err msg
      | .ok false => .skip
      | .ok true =>
        match getResultValue data with
        | .error msg => .err msg
        | .ok (.jstr s) =>
          .ret (.str (if 300 < s.length then s.take 300 ++ ellipsis else s))
        | .ok (.jarr xs) =>
          if 300 < xs.length then .err concatListErr
          else .ret (.nonStr (.jarr xs))
        | .ok (.jobj fs) =>
          if 300 < fs.length then .err sliceDictErr
          else .ret (.nonStr (.jobj fs))
        | .ok (.jnum raw) => .err (lenErr (numTypeName raw))
        | .ok (.jbool _) => .err (lenErr (("bool").data))
        | .ok .jnull => .err (lenErr (("NoneType").data))
  else .skip

/-- The fallback of runner.py lines 275-277: last 20 lines, keep the
non-blank non-"2026-" ones, join the last 5, truncate to 200. -/
def fallbackSummary (lines : List (List Char)) : PySummary :=
  let meaningful := (lastN 20 lines).filter
    (fun l => decide (pyStrip l ≠ []) && ! (("2026-").data.isPrefixOf l))
  .str ((joinNl (lastN 5 meaningful)).take 200)

/-- The scanning loop over reversed lines; on exhaustion the fallback of
lines 275-277 runs on the original line list. -/
def scanLoop (lines : List (List Char)) : List (List Char) → PySummary
  | [] => fallbackSummary lines
  | l :: rest =>
    match scanLine l with
    | .skip => scanLoop lines rest
    | .ret s => s
    | .err msg => .str (errPrefix ++ msg)

/-- How the log file read goes: the path does not exist, open/read raises
OSError with the given message, or the whole content is read. -/
inductive FileRead where
  | missing
  | unreadable (emsg : List Char)
  | content (text : List Char)

/-- Runner._extract_summary (runner.py lines 251-280). -/
def extract_summary : FileRead → PySummary
  | .missing => .str noOutput
  | .unreadable e => .str (errPrefix ++ e)
  | .content text =>
    let lines := pySplitNl text
    scanLoop lines lines.reverse

/-- The summary-processing step of Notifier._format_completion_message
(notifier.py lines 58-61): strip, then truncate to 500 with an ellipsis
marker. -/
def clean_summary (s : List Char) : List Char :=
  let c := pyStrip s
  if 500 < c.length then c.take 500 ++ ellipsis else c

/-- The summary text embedded in the completion message (notifier.py
lines 63-71): present when the cleaned summary is non-empty and not the
no-output placeholder; a non-string summary raises AttributeError at
summary.strip(), so no message is built at all. -/
def embedded_summary : PySummary → Option (List Char)
  | .str s =>
    let c := clean_summary s
    if c ≠ [] ∧ c ≠ noOutput then some c else none
  | .nonStr _ => none

/-- The observable state of the supervisor: the registry plus the external
side effects the operations perform (persistence writes via
`save_workers`, background processes launched via `Popen`, synchronous
`subprocess.run` launches, signals delivered via `os.killpg`, and
completion notifications dispatched via `Notifier.notify_completion`,
recorded by worker name). -/
structure SysState where
  workers : Registry
  saves : Nat
  spawns : List Nat
  fgLaunches : Nat
  signals : List Nat
  notifications : List String
  deriving DecidableEq, Repr

/-- Runner._handle_completion (runner.py lines 234-249): look the worker
up; if present, summarize its log and dispatch one completion
notification to its target.  Only the dispatch event matters to the state
model; the message content is treated by the summarizer development
below. -/
def handle_completion (name : String) (st : SysState) : SysState :=
  match lookup st.workers name with
  | none => st
  | some _ => { st with notifications := st.notifications ++ [name] }

/-- Runner._handle_completion as invoked by the foreground path of
Runner.run (runner.py line 145), with the outcome of reading the
worker's log file explicit: the summary is extracted (runner.py lines
251-280) and, when it is a Python string, the notifier builds the
message and makes the send call, so one notification is dispatched
(notifier.py lines 41-43); a non-string summary — a JSON list or dict
result of length at most 300 returned unchanged by line 270 — raises
AttributeError at summary.strip() (notifier.py line 59).  `none` models
that exception propagating back into run's try block. -/
def handle_completion_fg (name : String) (fr : FileRead) (st : SysState) :
    Option SysState :=
  match lookup st.workers name with
  | none => some st
  | some _ =>
    match extract_summary fr with
    | .str _ => some { st with notifications := st.notifications ++ [name] }
    | .nonStr _ => none

/-- Runner.run (runner.py lines 79-151).  External outcomes are inputs:
`authOk` is the result of `set_env_wizard`, `popenPid` is `some pid` when
`subprocess.Popen` succeeds and `none` when it raises, `fgExit` is the
returncode of the synchronous `subprocess.run`, `fgLog` is the state of
the worker's log file when the foreground completion pipeline reads it
(unused in background mode), `sessionId` is the fresh `uuid4`, and `now`
is `time.time()`.  The try block at lines 105-149 wraps everything up to
and including the `_handle_completion` call, so a foreground spawn whose
completion pipeline raises returns False with the completed record
already stored and persisted.  Returns the boolean result and the new
state. -/
def run (authOk : Bool) (popenPid : Option Nat) (fgExit : Int)
    (fgLog : FileRead) (name prompt model : String) (budget : Rat)
    (notify_target : String) (background : Bool) (sessionId : String)
    (now : Nat) (st : SysState) : Bool × SysState :=
  if (lookup st.workers name).isSome then (false, st)
  else if ¬ authOk then (false, st)
  else
    let log_file := name ++ ".log"
    if background then
      match popenPid with
      | none => (false, st)
      | some pid =>
        let w : Worker :=
          { pid := some pid, session_id := sessionId, model := model,
            budget := budget, notify_target := notify_target,
            prompt := prompt, start_time := now, status := "running",
            log_file := log_file, background := true, end_time := none }
        (true, { st with
          workers := setw st.workers name w,
          spawns := st.spawns ++ [pid],
          saves := st.saves + 1 })
    else
      let st1 := { st with fgLaunches := st.fgLaunches + 1 }
      if fgExit ≠ 0 then (false, st1)
      else
        let w : Worker :=
          { pid := none, session_id := sessionId, model := model,
            budget := budget, notify_target := notify_target,
            prompt := prompt, start_time := now, status := "completed",
            log_file := log_file, background := false, end_time := none }
        let st2 := { st1 with
          workers := setw st1.workers name w,
          saves := st1.saves + 1 }
        match handle_completion_fg name fgLog st2 with
        | some st3 => (true, st3)
        | none => (false, st2)

/-- Runner.kill_worker (runner.py lines 153-176).  `alive` reports whether
the process group still exists when `os.killpg` fires: if it does not,
Python raises `ProcessLookupError` and the except branch runs.  The guard
`worker["status"] != "running" or not worker.get("pid")` is the second
early return. -/
def kill_worker (alive : Bool) (name : String) (now : Nat)
    (st : SysState) : Bool × SysState :=
  match lookup st.workers name with
  | none => (false, st)
  | some w =>
    if w.status ≠ "running" ∨ w.pid.getD 0 = 0 then (false, st)
    else if alive then
      (true, { st with
        workers := setw st.workers name
          ({ w with status := "killed", end_time := some now }),
        signals := st.signals ++ [w.pid.getD 0],
        saves := st.saves + 1 })
    else
      (true, { st with
        workers := setw st.workers name
          ({ w with status := "dead", end_time := some now }),
        saves := st.saves + 1 })

/-- The loop body of Runner._check_worker_statuses (runner.py lines
220-229): iterate over a snapshot of the registry items; for each running
worker with a truthy pid, probe the process with `os.kill(pid, 0)`
(modelled by the liveness oracle `aliveF`); if it is gone, mark the
record `completed`, set `end_time`, and handle completion.  Returns the
`updated` flag and the final state. -/
def sweepEntries (aliveF : Nat → Bool) (now : Nat) :
    List (String × Worker) → SysState → Bool × SysState
  | [], st => (false, st)
  | (n, w) :: rest, st =>
    if w.status = "running" ∧ pyTruthy w.pid then
      if aliveF (w.pid.getD 0) then sweepEntries aliveF now rest st
      else
        let w' : Worker := { w with status := "completed", end_time := some now }
        let st1 := { st with workers := setw st.workers n w' }
        let st2 := handle_completion n st1
        let r := sweepEntries aliveF now rest st2
        (true, r.2)
    else sweepEntries aliveF now rest st

/-- Runner._check_worker_statuses (runner.py lines 217-232): run the sweep
over a snapshot of the current items, then persist once if anything was
updated. -/
def check_worker_statuses (aliveF : Nat → Bool) (now : Nat)
    (st : SysState) : SysState :=
  let r := sweepEntries aliveF now st.workers st
  if r.1 then { r.2 with saves := r.2.saves + 1 } else r.2

/-- Runner.cleanup_completed (runner.py lines 193-205): collect the names
whose status is completed, killed or dead, delete each of them, persist
once if any were deleted, and return how many. -/
def cleanup_completed (st : SysState) : Nat × SysState :=
  let to_remove := (st.workers.filter
    (fun e => e.2.status ∈ (["completed", "killed", "dead"] : List String))).map Prod.fst
  let ws := to_remove.foldl delKey st.workers
  let st1 := { st with workers := ws }
  let st2 := if to_remove ≠ [] then { st1 with saves := st1.saves + 1 } else st1
  (to_remove.length, st2)

/-!
The kill / exit-monitor race.  runner.py takes no lock, so the monitor
thread (the `monitor_loop` started by `_start_status_monitor`, lines
207-215) and the main thread's `kill_worker` interleave freely between
their reads and writes.  The model below splits each path at its actual
suspension points: a kill is a guard read (lines 155-162) followed
separately by the killpg-and-write step (lines 164-176); one sweep
iteration is a guard-and-probe read (lines 221-224) followed separately
by the write-and-notify step (lines 226-229).  `worker["…"] = …` writes
go through the shared dict object, so each write step re-reads the
current record and mutates only its status and end_time fields.  The two
Python threads are each modelled as a small state machine — events that
do not match a thread's current state are no-ops, so any event list is a
schedule the threaded program could take.
-/

/-- The monitor thread's position: between sweeps; mid-sweep with the
names still to examine (the `list(self.workers.items())` snapshot fixes
which entries are visited, while every field read goes to the live
dict); armed after its guard and probe found a running worker whose
process is gone, about to write and notify; or dead because
_handle_completion raised out of the unprotected monitor_loop. -/
inductive MonState where
  | idle
  | pending (rest : List String) (updated : Bool)
  | armed (name : String) (rest : List String) (updated : Bool)
  | crashed

/-- The main thread's position inside kill_worker: idle, or past the
running-guard (runner.py line 160) and about to call os.killpg and
write. -/
inductive KillState where
  | kidle
  | karmed (name : String)

/-- A global configuration: the shared supervisor state plus each
thread's position. -/
structure RaceState where
  sys : SysState
  mon : MonState
  kil : KillState

/-- Atomic micro-events of the two threads.  `checkStep` and
`killFinish` carry the process liveness observed at that instant;
`flipStep` carries the clock and the state of the worker's log file when
`_handle_completion` reads it. -/
inductive REv where
  | sweepStart
  | checkStep (alive : Bool)
  | flipStep (t : Nat) (fr : FileRead)
  | sweepEnd
  | killStart (name : String)
  | killFinish (alive : Bool) (t : Nat)

/-- One interleaved micro-step.  sweepStart snapshots the worker names
(runner.py line 220); checkStep runs one iteration's guard and probe
(lines 221-224) against the live records; flipStep performs lines
226-229: write completed and end_time, then _handle_completion — a
string summary dispatches one notification, a non-string summary raises
and kills the monitor thread before the sweep's save; sweepEnd persists
once if anything was updated (lines 231-232); killStart runs
kill_worker's guard reads (lines 155-162); killFinish performs os.killpg
and the status write (lines 164-176) against the live record. -/
def rstep (S : RaceState) : REv → RaceState
  | .sweepStart =>
    match S.mon with
    | .idle => { S with mon := .pending (S.sys.workers.map Prod.fst) false }
    | _ => S
  | .checkStep alive =>
    match S.mon with
    | .pending (m :: rest) u =>
      match lookup S.sys.workers m with
      | some w =>
        if w.status = "running" ∧ pyTruthy w.pid then
          if alive then { S with mon := .pending rest u }
          else { S with mon := .armed m rest u }
        else { S with mon := .pending rest u }
      | none => { S with mon := .pending rest u }
    | _ => S
  | .flipStep t fr =>
    match S.mon with
    | .armed m rest _ =>
      match lookup S.sys.workers m with
      | none => { S with mon := .pending rest true }
      | some w =>
        let w1 : Worker := { w with status := "completed", end_time := some t }
        let sys1 := { S.sys with workers := setw S.sys.workers m w1 }
        match extract_summary fr with
        | .str _ =>
          { S with
            sys := { sys1 with notifications := sys1.notifications ++ [m] },
            mon := .pending rest true }
        | .nonStr _ => { S with sys := sys1, mon := .crashed }
    | _ => S
  | .sweepEnd =>
    match S.mon with
    | .pending [] u =>
      if u then
        { S with sys := { S.sys with saves := S.sys.saves + 1 }, mon := .idle }
      else { S with mon := .idle }
    | _ => S
  | .killStart n =>
    match S.kil with
    | .kidle =>
      match lookup S.sys.workers n with
      | none => S
      | some w =>
        if w.status ≠ "running" ∨ w.pid.getD 0 = 0 then S
        else { S with kil := .karmed n }
    | _ => S
  | .killFinish alive t =>
    match S.kil with
    | .karmed n =>
      match lookup S.sys.workers n with
      | none => { S with kil := .kidle }
      | some w =>
        if alive then
          { S with
            sys := { S.sys with
              workers := setw S.sys.workers n
                ({ w with status := "killed", end_time := some t }),
              signals := S.sys.signals ++ [w.pid.getD 0],
              saves := S.sys.saves + 1 },
            kil := .kidle }
        else
          { S with
            sys := { S.sys with
              workers := setw S.sys.workers n
                ({ w with status := "dead", end_time := some t }),
              saves := S.sys.saves + 1 },
            kil := .kidle }
    | _ => S

/-- Run a schedule: any interleaving the two threads can take. -/
def runRace (evs : List REv) (S : RaceState) : RaceState :=
  evs.foldl rstep S

section RegistryLemmas

theorem lookup_setw_self (ws : Registry) (n : String) (w : Worker) :
    lookup (setw ws n w) n = some w := by
  induction ws with
  | nil => simp [setw, lookup]
  | cons e rest ih =>
    obtain ⟨m, v⟩ := e
    by_cases h : m = n <;> simp [setw, lookup, h, ih]

theorem lookup_setw_ne (ws : Registry) (n m : String) (w : Worker)
    (h : m ≠ n) : lookup (setw ws n w) m = lookup ws m := by
  induction ws with
  | nil =>
    simp only [setw, lookup]
    rw [if_neg (fun hh => h hh.symm)]
  | cons e rest ih =>
    obtain ⟨k, v⟩ := e
    by_cases hk : k = n
    · subst hk
      have hkm : ¬ k = m := fun hh => h hh.symm
      simp only [setw, if_pos rfl, lookup, if_neg hkm]
    · simp only [setw, if_neg hk, lookup]
      by_cases hkm : k = m <;> simp [hkm, ih]

theorem mem_setw {ws : Registry} {n : String} {w : Worker} {e : String × Worker}
    (h : e ∈ setw ws n w) : e = (n, w) ∨ e ∈ ws := by
  induction ws with
  | nil => simpa [setw] using h
  | cons f rest ih =>
    obtain ⟨k, v⟩ := f
    by_cases hk : k = n
    · simp only [setw, if_pos hk] at h
      rcases List.mem_cons.mp h with he | he
      · exact Or.inl he
      · exact Or.inr (List.mem_cons_of_mem _ he)
    · simp only [setw, if_neg hk] at h
      rcases List.mem_cons.mp h with he | he
      · exact Or.inr (he ▸ List.mem_cons_self _ _)
      · rcases ih he with h' | h'
        · exact Or.inl h'
        · exact Or.inr (List.mem_cons_of_mem _ h')

theorem keys_setw (ws : Registry) (n : String) (w : Worker) :
    (setw ws n w).map Prod.fst =
      if n ∈ ws.map Prod.fst then ws.map Prod.fst
      else ws.map Prod.fst ++ [n] := by
  induction ws with
  | nil => simp [setw]
  | cons e rest ih =>
    obtain ⟨k, v⟩ := e
    by_cases hk : k = n
    · subst hk
      simp [setw]
    · have hnk : ¬ n = k := fun hh => hk hh.symm
      simp only [setw, if_neg hk, List.map_cons, ih, List.mem_cons]
      by_cases hn : n ∈ rest.map Prod.fst <;> simp [hn, hnk]

theorem keysNodup_setw {ws : Registry} (n : String) (w : Worker)
    (h : keysNodup ws) : keysNodup (setw ws n w) := by
  unfold keysNodup at h ⊢
  rw [keys_setw]
  by_cases hn : n ∈ ws.map Prod.fst
  · simpa [hn] using h
  · simp [hn, List.nodup_append, h]

theorem lookup_eq_some_of_mem {ws : Registry} {n : String} {w : Worker}
    (hnd : keysNodup ws) (h : (n, w) ∈ ws) : lookup ws n = some w := by
  induction ws with
  | nil => simp at h
  | cons e rest ih =>
    obtain ⟨k, v⟩ := e
    rw [keysNodup, List.map_cons, List.nodup_cons] at hnd
    rcases List.mem_cons.mp h with he | he
    · have h1 : n = k := congrArg Prod.fst he
      have h2 : w = v := congrArg Prod.snd he
      subst h1; subst h2
      simp [lookup]
    · have hk : ¬ k = n := by
        rintro rfl
        exact hnd.1 (List.mem_map.mpr ⟨(k, w), he, rfl⟩)
      simp only [lookup, if_neg hk]
      exact ih hnd.2 he

theorem mem_of_lookup_eq_some {ws : Registry} {n : String} {w : Worker}
    (h : lookup ws n = some w) : (n, w) ∈ ws := by
  induction ws with
  | nil => simp [lookup] at h
  | cons e rest ih =>
    obtain ⟨k, v⟩ := e
    by_cases hk : k = n
    · subst hk
      simp [lookup] at h
      simp [h]
    · simp [lookup, hk] at h
      exact List.mem_cons_of_mem _ (ih h)

end RegistryLemmas

/-- A concrete running worker, used to instantiate the theorems below. -/
def wRun : Worker :=
  { pid := some 42, session_id := "sid-1", model := "haiku", budget := 2,
    notify_target := "main", prompt := "do things", start_time := 10,
    status := "running", log_file := "t1.log", background := true,
    end_time := none }

/-- A concrete state holding one running worker named t1. -/
def stRun : SysState :=
  { workers := [("t1", wRun)], saves := 0, spawns := [], fgLaunches := 0,
    signals := [], notifications := [] }

/-- C2: a second spawn for a name that already has a record (whatever its
status) fails and changes nothing: the registry, the persisted file, the
spawned-process lists and the notifications are all exactly as before.
The duplicate check is the first thing Runner.run does (runner.py lines
83-85), so this holds for every combination of the other inputs. -/
theorem run_duplicate_no_effect (authOk : Bool) (popenPid : Option Nat)
    (fgExit : Int) (fgLog : FileRead) (name prompt model : String)
    (budget : Rat) (notify_target : String) (background : Bool)
    (sessionId : String) (now : Nat) (st : SysState)
    (h : (lookup st.workers name).isSome) :
    run authOk popenPid fgExit fgLog name prompt model budget notify_target
      background sessionId now st = (false, st) := by
  simp [run, h]

/-- Witness for C2 at a concrete state: a record for t1 exists, and a
second run call for t1 returns false with the state unchanged. -/
theorem run_duplicate_no_effect_witness :
    (lookup stRun.workers "t1").isSome = true ∧
    run true (some 7) 0 FileRead.missing "t1" "other prompt" "opus" 5 "main"
      true "sid-2" 99 stRun = (false, stRun) :=
  ⟨rfl, run_duplicate_no_effect true (some 7) 0 FileRead.missing "t1"
    "other prompt" "opus" 5 "main" true "sid-2" 99 stRun rfl⟩

/-- C4: kill on an absent name, or on a record whose status is not
running, fails and has no side effects at all: the returned state is the
input state, so no signal is sent, no field changes, nothing is persisted
(runner.py lines 155-162). -/
theorem kill_worker_guard (alive : Bool) (name : String) (now : Nat)
    (st : SysState) :
    (lookup st.workers name = none →
      kill_worker alive name now st = (false, st)) ∧
    (∀ w, lookup st.workers name = some w → w.status ≠ "running" →
      kill_worker alive name now st = (false, st)) := by
  constructor
  · intro h
    simp [kill_worker, h]
  · intro w h hs
    simp [kill_worker, h, hs]

/-- Witness for C4: killing the unknown name t9, and killing a worker
already in status killed, both fail and leave a concrete state intact. -/
theorem kill_worker_guard_witness :
    kill_worker true "t9" 50 stRun = (false, stRun) ∧
    (let stK : SysState :=
      { workers := [("t1", { wRun with status := "killed", end_time := some 20 })],
        saves := 1, spawns := [], fgLaunches := 0, signals := [42],
        notifications := [] }
     kill_worker true "t1" 50 stK = (false, stK)) :=
  ⟨(kill_worker_guard true "t9" 50 stRun).1 rfl,
   (kill_worker_guard true "t1" 50 _).2 _ rfl (by decide)⟩

/-- C5: killing a running worker whose process group is already gone
(so os.killpg raises ProcessLookupError) is not an error: the call
returns success, the record moves to dead (not killed) with end_time
set, the registry is persisted once, and no signal is recorded
(runner.py lines 164-176, except branch). -/
theorem kill_worker_already_gone (name : String) (now : Nat) (st : SysState)
    (w : Worker) (p : Nat) (h : lookup st.workers name = some w)
    (hs : w.status = "running") (hp : w.pid = some p) (hp0 : p ≠ 0) :
    kill_worker false name now st =
      (true, { st with
        workers := setw st.workers name
          ({ w with status := "dead", end_time := some now }),
        saves := st.saves + 1 }) ∧
    lookup (kill_worker false name now st).2.workers name =
      some ({ w with status := "dead", end_time := some now }) := by
  have hmain : kill_worker false name now st =
      (true, { st with
        workers := setw st.workers name
          ({ w with status := "dead", end_time := some now }),
        saves := st.saves + 1 }) := by
    simp [kill_worker, h, hs, hp, hp0]
  refine ⟨hmain, ?_⟩
  rw [hmain]
  exact lookup_setw_self st.workers name _

/-- Witness for C5: killing t1 (running, pid 42) when the process is
already gone reports success and lands the record in dead. -/
theorem kill_worker_already_gone_witness :
    kill_worker false "t1" 50 stRun =
      (true, { stRun with
        workers := setw stRun.workers "t1"
          ({ wRun with status := "dead", end_time := some 50 }),
        saves := stRun.saves + 1 }) ∧
    lookup (kill_worker false "t1" 50 stRun).2.workers "t1" =
      some ({ wRun with status := "dead", end_time := some 50 }) :=
  kill_worker_already_gone "t1" 50 stRun wRun 42 rfl rfl rfl (by decide)

section CleanupLemmas

theorem foldl_delKey (names : List String) (ws : Registry) :
    names.foldl delKey ws = ws.filter (fun e => decide (e.1 ∉ names)) := by
  induction names generalizing ws with
  | nil => simp
  | cons n ns ih =>
    rw [List.foldl_cons, ih, delKey, List.filter_filter]
    apply List.filter_congr
    intro e _
    simp [not_or, Bool.and_comm]

theorem value_eq_of_mem_of_mem {ws : Registry} {n : String} {w w' : Worker}
    (hnd : keysNodup ws) (h1 : (n, w) ∈ ws) (h2 : (n, w') ∈ ws) : w = w' := by
  have e1 := lookup_eq_some_of_mem hnd h1
  have e2 := lookup_eq_some_of_mem hnd h2
  rw [e1] at e2
  exact Option.some.inj e2

end CleanupLemmas

/-- C6: cleanup removes exactly the records whose status is completed,
killed or dead, preserves every other record (running ones included), and
returns the number it removed (runner.py lines 193-205).  The hypothesis
is the dict well-formedness of the registry: keys are pairwise distinct. -/
theorem cleanup_completed_spec (st : SysState) (hnd : keysNodup st.workers) :
    (cleanup_completed st).2.workers =
      st.workers.filter
        (fun e => decide (e.2.status ∉ (["completed", "killed", "dead"] : List String))) ∧
    (cleanup_completed st).1 =
      (st.workers.filter
        (fun e => e.2.status ∈ (["completed", "killed", "dead"] : List String))).length ∧
    (∀ e ∈ st.workers,
      (e ∈ (cleanup_completed st).2.workers ↔
        e.2.status ∉ (["completed", "killed", "dead"] : List String))) := by
  set term3 : List String := ["completed", "killed", "dead"] with hterm3
  set to_remove := (st.workers.filter (fun e => e.2.status ∈ term3)).map Prod.fst
    with hto
  have hmemkey : ∀ e ∈ st.workers, (e.1 ∈ to_remove ↔ e.2.status ∈ term3) := by
    intro e he
    constructor
    · intro hin
      rw [hto, List.mem_map] at hin
      obtain ⟨e', he', hfst⟩ := hin
      rw [List.mem_filter] at he'
      have hw : e'.2 = e.2 := by
        have h1 : (e.1, e'.2) ∈ st.workers := by
          have : e' = (e.1, e'.2) := by
            rw [← hfst]
          rw [← this]
          exact he'.1
        exact value_eq_of_mem_of_mem hnd h1 (by
          have : e = (e.1, e.2) := rfl
          rw [← this]
          exact he)
      rw [← hw]
      simpa using he'.2
    · intro hin
      rw [hto, List.mem_map]
      exact ⟨e, List.mem_filter.mpr ⟨he, by simpa using hin⟩, rfl⟩
  have hwork0 : (cleanup_completed st).2.workers =
      to_remove.foldl delKey st.workers := by
    simp only [cleanup_completed, ← hterm3, ← hto]
    split <;> rfl
  have hworkers : (cleanup_completed st).2.workers =
      st.workers.filter (fun e => decide (e.2.status ∉ term3)) := by
    rw [hwork0, foldl_delKey]
    apply List.filter_congr
    intro e he
    simp only [decide_eq_decide]
    exact not_congr (hmemkey e he)
  refine ⟨hworkers, ?_, ?_⟩
  · have hcnt0 : (cleanup_completed st).1 = to_remove.length := by
      simp only [cleanup_completed, ← hterm3, ← hto]
    rw [hcnt0, hto, List.length_map]
  · intro e he
    rw [hworkers, List.mem_filter]
    constructor
    · intro h
      simpa using h.2
    · intro h
      exact ⟨he, by simpa using h⟩

/-- Witness for C6: a registry with one record in each status; cleanup
removes the three terminal ones, keeps the running one, and returns 3. -/
theorem cleanup_completed_spec_witness :
    (cleanup_completed
      { workers := [("a", wRun),
                    ("b", { wRun with status := "completed", end_time := some 20 }),
                    ("c", { wRun with status := "killed", end_time := some 21 }),
                    ("d", { wRun with status := "dead", end_time := some 22 })],
        saves := 0, spawns := [], fgLaunches := 0, signals := [],
        notifications := [] }).2.workers = [("a", wRun)] ∧
    (cleanup_completed
      { workers := [("a", wRun),
                    ("b", { wRun with status := "completed", end_time := some 20 }),
                    ("c", { wRun with status := "killed", end_time := some 21 }),
                    ("d", { wRun with status := "dead", end_time := some 22 })],
        saves := 0, spawns := [], fgLaunches := 0, signals := [],
        notifications := [] }).1 = 3 := by
  have h := cleanup_completed_spec
    { workers := [("a", wRun),
                  ("b", { wRun with status := "completed", end_time := some 20 }),
                  ("c", { wRun with status := "killed", end_time := some 21 }),
                  ("d", { wRun with status := "dead", end_time := some 22 })],
      saves := 0, spawns := [], fgLaunches := 0, signals := [],
      notifications := [] } (by unfold keysNodup; decide)
  exact ⟨h.1.trans (by decide), h.2.1.trans (by decide)⟩

section PreservationLemmas

theorem handle_completion_workers (n : String) (st : SysState) :
    (handle_completion n st).workers = st.workers := by
  unfold handle_completion
  split <;> rfl

/-- A predicate on registry entries closed under the three in-place
terminal updates the Runner performs (kill → killed, kill-on-gone → dead,
monitor → completed). -/
def StepClosed (P : String × Worker → Prop) : Prop :=
  (∀ n w t, P (n, w) → P (n, { w with status := "killed", end_time := some t })) ∧
  (∀ n w t, P (n, w) → P (n, { w with status := "dead", end_time := some t })) ∧
  (∀ n w t, P (n, w) → P (n, { w with status := "completed", end_time := some t }))

theorem kill_worker_pres (P : String × Worker → Prop) (hC : StepClosed P)
    (alive : Bool) (name : String) (now : Nat) (st : SysState)
    (hst : ∀ e ∈ st.workers, P e) :
    ∀ e ∈ (kill_worker alive name now st).2.workers, P e := by
  rcases hlk : lookup st.workers name with _ | w
  · simpa [kill_worker, hlk] using hst
  · have hw : (name, w) ∈ st.workers := mem_of_lookup_eq_some hlk
    by_cases hg : w.status ≠ "running" ∨ w.pid.getD 0 = 0
    · simpa [kill_worker, hlk, hg] using hst
    · rcases halive : alive with _ | _
      · simp only [kill_worker, hlk, if_neg hg, halive, Bool.false_eq_true,
          if_false]
        intro e he
        rcases mem_setw he with rfl | he'
        · exact hC.2.1 name w now (hst _ hw)
        · exact hst e he'
      · simp only [kill_worker, hlk, if_neg hg, halive, if_true]
        intro e he
        rcases mem_setw he with rfl | he'
        · exact hC.1 name w now (hst _ hw)
        · exact hst e he'

theorem sweepEntries_pres (P : String × Worker → Prop) (hC : StepClosed P)
    (aliveF : Nat → Bool) (now : Nat) :
    ∀ (entries : List (String × Worker)) (st : SysState),
      (∀ e ∈ entries, P e) → (∀ e ∈ st.workers, P e) →
      ∀ e ∈ (sweepEntries aliveF now entries st).2.workers, P e := by
  intro entries
  induction entries with
  | nil =>
    intro st _ hst e he
    simpa [sweepEntries] using hst e he
  | cons f rest ih =>
    intro st hent hst
    obtain ⟨n, w⟩ := f
    have hw : P (n, w) := hent _ (List.mem_cons_self _ _)
    have hrest : ∀ e ∈ rest, P e := fun e he => hent e (List.mem_cons_of_mem _ he)
    by_cases hg : w.status = "running" ∧ pyTruthy w.pid
    · by_cases ha : aliveF (w.pid.getD 0)
      · simpa [sweepEntries, hg, ha] using ih st hrest hst
      · simp only [sweepEntries, if_pos hg, if_neg ha]
        intro e he
        refine ih _ hrest ?_ e he
        intro e' he'
        rw [handle_completion_workers] at he'
        rcases mem_setw he' with rfl | he''
        · exact hC.2.2 n w now hw
        · exact hst e' he''
    · simpa [sweepEntries, hg] using ih st hrest hst

theorem check_worker_statuses_workers (aliveF : Nat → Bool) (now : Nat)
    (st : SysState) :
    (check_worker_statuses aliveF now st).workers =
      (sweepEntries aliveF now st.workers st).2.workers := by
  unfold check_worker_statuses
  by_cases hu : (sweepEntries aliveF now st.workers st).1 = true <;> simp [hu]

theorem check_worker_statuses_pres (P : String × Worker → Prop)
    (hC : StepClosed P) (aliveF : Nat → Bool) (now : Nat) (st : SysState)
    (hst : ∀ e ∈ st.workers, P e) :
    ∀ e ∈ (check_worker_statuses aliveF now st).workers, P e := by
  intro e he
  rw [check_worker_statuses_workers] at he
  exact sweepEntries_pres P hC aliveF now st.workers st hst hst e he

theorem cleanup_completed_workers_sub (st : SysState) :
    ∀ e ∈ (cleanup_completed st).2.workers, e ∈ st.workers := by
  have h0 : (cleanup_completed st).2.workers =
      ((st.workers.filter
        (fun e => e.2.status ∈ (["completed", "killed", "dead"] : List String))).map
          Prod.fst).foldl delKey st.workers := by
    simp only [cleanup_completed]
    split <;> rfl
  intro e he
  rw [h0, foldl_delKey, List.mem_filter] at he
  exact he.1

theorem run_pres (P : String × Worker → Prop) (authOk : Bool)
    (popenPid : Option Nat) (fgExit : Int) (fgLog : FileRead)
    (name prompt model : String) (budget : Rat) (notify_target : String)
    (background : Bool) (sessionId : String) (now : Nat) (st : SysState)
    (hst : ∀ e ∈ st.workers, P e)
    (hbg : background = true → ∀ pid,
      P (name, ⟨some pid, sessionId, model, budget, notify_target, prompt,
        now, "running", name ++ ".log", true, none⟩))
    (hfg : background = false →
      P (name, ⟨none, sessionId, model, budget, notify_target, prompt,
        now, "completed", name ++ ".log", false, none⟩)) :
    ∀ e ∈ (run authOk popenPid fgExit fgLog name prompt model budget
      notify_target background sessionId now st).2.workers, P e := by
  intro e he
  by_cases hdup : (lookup st.workers name).isSome
  · rw [run] at he
    simp only [hdup, if_true] at he
    exact hst e he
  · by_cases hauth : authOk = true
    · by_cases hb : background = true
      · rcases hpp : popenPid with _ | pid
        · rw [run] at he
          simp [hdup, hauth, hb, hpp] at he
          exact hst e he
        · rw [run] at he
          simp [hdup, hauth, hb, hpp] at he
          rcases mem_setw he with rfl | he'
          · exact hbg hb pid
          · exact hst e he'
      · rw [Bool.not_eq_true] at hb
        by_cases hexit : fgExit = 0
        · rcases hx : extract_summary fgLog with s | v
          · rw [run] at he
            simp [hdup, hauth, hb, hexit, handle_completion_fg,
              lookup_setw_self, hx] at he
            rcases mem_setw he with rfl | he'
            · exact hfg hb
            · exact hst e he'
          · rw [run] at he
            simp [hdup, hauth, hb, hexit, handle_completion_fg,
              lookup_setw_self, hx] at he
            rcases mem_setw he with rfl | he'
            · exact hfg hb
            · exact hst e he'
        · rw [run] at he
          simp [hdup, hauth, hb, hexit] at he
          exact hst e he
    · rw [run] at he
      simp [hdup, hauth] at he
      exact hst e he

theorem run_failed_cases (authOk : Bool) (popenPid : Option Nat)
    (fgExit : Int) (fgLog : FileRead) (name prompt model : String)
    (budget : Rat) (notify_target : String) (background : Bool)
    (sessionId : String) (now : Nat) (st : SysState)
    (hfail : (run authOk popenPid fgExit fgLog name prompt model budget
      notify_target background sessionId now st).1 = false) :
    (run authOk popenPid fgExit fgLog name prompt model budget notify_target
      background sessionId now st).2.workers = st.workers ∨
    (background = false ∧ fgExit = 0 ∧
      (∃ v, extract_summary fgLog = PySummary.nonStr v) ∧
      (run authOk popenPid fgExit fgLog name prompt model budget
        notify_target background sessionId now st).2.workers =
        setw st.workers name
          ⟨none, sessionId, model, budget, notify_target, prompt, now,
            "completed", name ++ ".log", false, none⟩) := by
  by_cases hdup : (lookup st.workers name).isSome
  · left
    simp [run, hdup]
  · by_cases hauth : authOk = true
    · by_cases hb : background = true
      · rcases hpp : popenPid with _ | pid
        · left
          simp [run, hdup, hauth, hb, hpp]
        · rw [run] at hfail
          simp [hdup, hauth, hb, hpp] at hfail
      · rw [Bool.not_eq_true] at hb
        by_cases hexit : fgExit = 0
        · rcases hx : extract_summary fgLog with s | v
          · rw [run] at hfail
            simp [hdup, hauth, hb, hexit, handle_completion_fg,
              lookup_setw_self, hx] at hfail
          · right
            refine ⟨hb, hexit, ⟨v, rfl⟩, ?_⟩
            rw [run]
            simp [hdup, hauth, hb, hexit, handle_completion_fg,
              lookup_setw_self, hx]
        · left
          simp [run, hdup, hauth, hb, hexit]
    · left
      simp [run, hdup, hauth]

end PreservationLemmas

/-- Every registry record has one of the four statuses the Runner ever
writes. -/
def StatusOK (st : SysState) : Prop :=
  ∀ e ∈ st.workers,
    e.2.status ∈ (["running", "completed", "killed", "dead"] : List String)

/-- The empty initial state. -/
def stEmpty : SysState :=
  { workers := [], saves := 0, spawns := [], fgLaunches := 0, signals := [],
    notifications := [] }

/-- Counterexample to C10 as stated: a foreground spawn whose log holds
the structured result line with an empty JSON list gets that list back
unchanged from _extract_summary (runner.py line 270), the notifier
raises AttributeError at summary.strip() (notifier.py line 59), the
exception lands in run's except clause (runner.py line 149) — and run
returns False with the completed record already stored and persisted
(lines 126-139), so this failed spawn did store a record. -/
theorem failed_spawn_stores_record_cex :
    (run true none 0 (.content (("\x7b\"result\": []\x7d").data)) "t1" "p"
      "haiku" 2 "main" false "sid" 10 stEmpty).1 = false ∧
    lookup (run true none 0 (.content (("\x7b\"result\": []\x7d").data))
      "t1" "p" "haiku" 2 "main" false "sid" 10 stEmpty).2.workers "t1" =
      some ⟨none, "sid", "haiku", 2, "main", "p", 10, "completed",
        "t1" ++ ".log", false, none⟩ ∧
    (run true none 0 (.content (("\x7b\"result\": []\x7d").data)) "t1" "p"
      "haiku" 2 "main" false "sid" 10 stEmpty).2.saves = 1 :=
  ⟨rfl, rfl, rfl⟩

/-- C10 amended: every operation keeps every stored status inside the
set running / completed / killed / dead — the statuses "pending" and
"failed" are never written.  A spawn that fails before storing (a
duplicate name, a failed auth check, Popen raising in background mode, a
non-zero exit in foreground mode) stores no record; the one failing path
that does store is the foreground spawn whose completion pipeline raises
on a non-string JSON result, which returns False with the completed
record already in the registry (see the counterexample). -/
theorem status_domain_invariant :
    (∀ (authOk : Bool) (popenPid : Option Nat) (fgExit : Int)
      (fgLog : FileRead) (name prompt model : String) (budget : Rat)
      (notify_target : String) (background : Bool) (sessionId : String)
      (now : Nat) (st : SysState),
      StatusOK st →
      StatusOK (run authOk popenPid fgExit fgLog name prompt model budget
        notify_target background sessionId now st).2) ∧
    (∀ (alive : Bool) (name : String) (now : Nat) (st : SysState),
      StatusOK st → StatusOK (kill_worker alive name now st).2) ∧
    (∀ (aliveF : Nat → Bool) (now : Nat) (st : SysState),
      StatusOK st → StatusOK (check_worker_statuses aliveF now st)) ∧
    (∀ st : SysState, StatusOK st → StatusOK (cleanup_completed st).2) ∧
    (∀ (authOk : Bool) (popenPid : Option Nat) (fgExit : Int)
      (fgLog : FileRead) (name prompt model : String) (budget : Rat)
      (notify_target : String) (background : Bool) (sessionId : String)
      (now : Nat) (st : SysState),
      (run authOk popenPid fgExit fgLog name prompt model budget
        notify_target background sessionId now st).1 = false →
      (run authOk popenPid fgExit fgLog name prompt model budget
        notify_target background sessionId now st).2.workers = st.workers ∨
      (background = false ∧ fgExit = 0 ∧
        (∃ v, extract_summary fgLog = PySummary.nonStr v) ∧
        (run authOk popenPid fgExit fgLog name prompt model budget
          notify_target background sessionId now st).2.workers =
          setw st.workers name
            ⟨none, sessionId, model, budget, notify_target, prompt, now,
              "completed", name ++ ".log", false, none⟩)) := by
  have hC : StepClosed (fun e =>
      e.2.status ∈ (["running", "completed", "killed", "dead"] : List String)) := by
    refine ⟨?_, ?_, ?_⟩ <;> intro n w t _ <;> simp
  refine ⟨?_, ?_, ?_, ?_, ?_⟩
  · intro authOk popenPid fgExit fgLog name prompt model budget notify_target
      background sessionId now st hst
    exact run_pres _ authOk popenPid fgExit fgLog name prompt model budget
      notify_target background sessionId now st hst
      (fun _ _ => by simp) (fun _ => by simp)
  · intro alive name now st hst
    exact kill_worker_pres _ hC alive name now st hst
  · intro aliveF now st hst
    exact check_worker_statuses_pres _ hC aliveF now st hst
  · intro st hst e he
    exact hst e (cleanup_completed_workers_sub st e he)
  · intro authOk popenPid fgExit fgLog name prompt model budget notify_target
      background sessionId now st hfail
    exact run_failed_cases authOk popenPid fgExit fgLog name prompt model
      budget notify_target background sessionId now st hfail

/-- Witness for C10 amended: concrete uses of each conjunct — a
background spawn into the empty registry, a kill, a sweep and a cleanup
on a one-worker registry, and a background spawn whose Popen raises
(which stores nothing). -/
theorem status_domain_invariant_witness :
    StatusOK (run true (some 42) 0 FileRead.missing "t1" "p" "haiku" 2 "main"
      true "sid" 10 stEmpty).2 ∧
    StatusOK (kill_worker true "t1" 50 stRun).2 ∧
    StatusOK (check_worker_statuses (fun _ => false) 50 stRun) ∧
    StatusOK (cleanup_completed stRun).2 ∧
    ((run true none 0 FileRead.missing "t2" "p" "haiku" 2 "main" true "sid"
        10 stRun).2.workers = stRun.workers ∨
      (true = false ∧ (0 : Int) = 0 ∧
        (∃ v, extract_summary FileRead.missing = PySummary.nonStr v) ∧
        (run true none 0 FileRead.missing "t2" "p" "haiku" 2 "main" true
          "sid" 10 stRun).2.workers =
          setw stRun.workers "t2"
            ⟨none, "sid", "haiku", 2, "main", "p", 10, "completed",
              "t2" ++ ".log", false, none⟩)) :=
  ⟨status_domain_invariant.1 true (some 42) 0 FileRead.missing "t1" "p"
      "haiku" 2 "main" true "sid" 10 stEmpty (by unfold StatusOK; decide),
   status_domain_invariant.2.1 true "t1" 50 stRun (by unfold StatusOK; decide),
   status_domain_invariant.2.2.1 (fun _ => false) 50 stRun
      (by unfold StatusOK; decide),
   status_domain_invariant.2.2.2.1 stRun (by unfold StatusOK; decide),
   status_domain_invariant.2.2.2.2 true none 0 FileRead.missing "t2" "p"
      "haiku" 2 "main" true "sid" 10 stRun rfl⟩

/-- Every registry record has end_time set exactly when its status is
terminal. -/
def EndTimeOK (st : SysState) : Prop :=
  ∀ e ∈ st.workers,
    (e.2.end_time.isSome = true ↔
      e.2.status ∈ (["completed", "killed", "dead", "failed"] : List String))

/-- Counterexample to C3 as stated: a successful foreground spawn
(runner.py lines 117-137) inserts a record whose status is the terminal
"completed" but whose end_time field is absent, so the claimed
iff-invariant does not survive the foreground spawn operation. -/
theorem end_time_iff_terminal_cex :
    (run true none 0 FileRead.missing "t1" "p" "haiku" 2 "main" false "sid"
      10 stEmpty).1 = true ∧
    (∃ w, lookup (run true none 0 FileRead.missing "t1" "p" "haiku" 2 "main"
        false "sid" 10 stEmpty).2.workers "t1" = some w ∧
      w.status = "completed" ∧ w.end_time = none) ∧
    ¬ EndTimeOK (run true none 0 FileRead.missing "t1" "p" "haiku" 2 "main"
        false "sid" 10 stEmpty).2 := by
  refine ⟨rfl, ⟨⟨none, "sid", "haiku", 2, "main", "p", 10, "completed",
    "t1" ++ ".log", false, none⟩, rfl, rfl, rfl⟩, ?_⟩
  unfold EndTimeOK
  decide

/-- C3 amended: the iff-invariant "end_time is present exactly on
terminal records" is preserved by background spawn, kill, the
status-monitor sweep, and cleanup; the foreground spawn path is the one
exception, inserting a completed record without end_time (see the
counterexample). -/
theorem end_time_iff_terminal_amended :
    (∀ (authOk : Bool) (popenPid : Option Nat) (fgExit : Int)
      (fgLog : FileRead) (name prompt model : String) (budget : Rat)
      (notify_target : String) (sessionId : String) (now : Nat)
      (st : SysState),
      EndTimeOK st →
      EndTimeOK (run authOk popenPid fgExit fgLog name prompt model budget
        notify_target true sessionId now st).2) ∧
    (∀ (alive : Bool) (name : String) (now : Nat) (st : SysState),
      EndTimeOK st → EndTimeOK (kill_worker alive name now st).2) ∧
    (∀ (aliveF : Nat → Bool) (now : Nat) (st : SysState),
      EndTimeOK st → EndTimeOK (check_worker_statuses aliveF now st)) ∧
    (∀ st : SysState, EndTimeOK st → EndTimeOK (cleanup_completed st).2) := by
  have hC : StepClosed (fun e =>
      e.2.end_time.isSome = true ↔
        e.2.status ∈ (["completed", "killed", "dead", "failed"] : List String)) := by
    refine ⟨?_, ?_, ?_⟩ <;> intro n w t _ <;> simp
  refine ⟨?_, ?_, ?_, ?_⟩
  · intro authOk popenPid fgExit fgLog name prompt model budget notify_target
      sessionId now st hst
    exact run_pres _ authOk popenPid fgExit fgLog name prompt model budget
      notify_target true sessionId now st hst
      (fun _ _ => by simp) (fun hcon => by simp at hcon)
  · intro alive name now st hst
    exact kill_worker_pres _ hC alive name now st hst
  · intro aliveF now st hst
    exact check_worker_statuses_pres _ hC aliveF now st hst
  · intro st hst e he
    exact hst e (cleanup_completed_workers_sub st e he)

/-- Witness for C3 amended: the invariant holds after a background spawn
into the empty registry and after killing the concrete running worker. -/
theorem end_time_iff_terminal_amended_witness :
    EndTimeOK (run true (some 42) 0 FileRead.missing "t1" "p" "haiku" 2
      "main" true "sid" 10 stEmpty).2 ∧
    EndTimeOK (kill_worker true "t1" 50 stRun).2 :=
  ⟨end_time_iff_terminal_amended.1 true (some 42) 0 FileRead.missing "t1" "p"
      "haiku" 2 "main" "sid" 10 stEmpty (by unfold EndTimeOK; decide),
   end_time_iff_terminal_amended.2.1 true "t1" 50 stRun
      (by unfold EndTimeOK; decide)⟩

section RaceLemmas

/-- The monitor thread is past its guard and probe for worker n and has
the write-and-notify step still ahead. -/
def MonArmedFor (n : String) : MonState → Prop
  | .armed m _ _ => m = n
  | _ => False

/-- What survives every interleaving for a worker n: n stays in the
registry with one of the four written statuses; at most one notification
has ever been dispatched for it; a record still reading running has not
been notified about; an armed monitor step has not yet notified; and a
record reading completed has been notified exactly once unless the
monitor thread died in its completion pipeline. -/
def RaceInv (n : String) (S : RaceState) : Prop :=
  keysNodup S.sys.workers ∧
  (∃ w, lookup S.sys.workers n = some w ∧
    w.status ∈ (["running", "completed", "killed", "dead"] : List String)) ∧
  S.sys.notifications.count n ≤ 1 ∧
  (∀ w, lookup S.sys.workers n = some w → w.status = "running" →
    S.sys.notifications.count n = 0) ∧
  (MonArmedFor n S.mon → S.sys.notifications.count n = 0) ∧
  (S.mon ≠ MonState.crashed →
    ∀ w, lookup S.sys.workers n = some w → w.status = "completed" →
      S.sys.notifications.count n = 1)

theorem RaceInv_frame (n : String) (S S' : RaceState) (h : RaceInv n S)
    (hw : S'.sys.workers = S.sys.workers)
    (hn : S'.sys.notifications = S.sys.notifications)
    (harm : MonArmedFor n S'.mon → S.sys.notifications.count n = 0)
    (hcr : S'.mon ≠ MonState.crashed → S.mon ≠ MonState.crashed) :
    RaceInv n S' := by
  obtain ⟨hnd, hex, hc1, hc2, hc5, hc6⟩ := h
  refine ⟨?_, ?_, ?_, ?_, ?_, ?_⟩
  · rw [hw]
    exact hnd
  · rw [hw]
    exact hex
  · rw [hn]
    exact hc1
  · rw [hw, hn]
    exact hc2
  · intro ha
    rw [hn]
    exact harm ha
  · intro hcr'
    rw [hw, hn]
    exact hc6 (hcr hcr')

/-- A write that dispatches no notification: both kill writes, and the
monitor's completed-write when the completion pipeline raises. -/
theorem RaceInv_silent_write (n m : String) (S S' : RaceState)
    (h : RaceInv n S) (w1 : Worker)
    (hst : w1.status = "completed" ∨ w1.status = "killed" ∨
      w1.status = "dead")
    (hw : S'.sys.workers = setw S.sys.workers m w1)
    (hn : S'.sys.notifications = S.sys.notifications)
    (harm : MonArmedFor n S'.mon → MonArmedFor n S.mon)
    (hcr : S'.mon ≠ MonState.crashed → S.mon ≠ MonState.crashed)
    (hc6new : S'.mon ≠ MonState.crashed → m = n → w1.status ≠ "completed") :
    RaceInv n S' := by
  obtain ⟨hnd, ⟨w0, hl0, hs0⟩, hc1, hc2, hc5, hc6⟩ := h
  have hnotrun : w1.status ≠ "running" := by
    rcases hst with hst | hst | hst <;> (rw [hst]; decide)
  by_cases hmn : m = n
  · subst hmn
    refine ⟨?_, ⟨w1, ?_, ?_⟩, ?_, ?_, ?_, ?_⟩
    · rw [hw]
      exact keysNodup_setw m w1 hnd
    · rw [hw]
      exact lookup_setw_self _ m w1
    · rcases hst with hst | hst | hst <;> simp [hst]
    · rw [hn]
      exact hc1
    · intro w' hl' hs'
      rw [hw, lookup_setw_self] at hl'
      have hww : w' = w1 := (Option.some.inj hl').symm
      subst hww
      exact absurd hs' hnotrun
    · intro ha
      rw [hn]
      exact hc5 (harm ha)
    · intro hcr' w' hl' hs'
      rw [hw, lookup_setw_self] at hl'
      have hww : w' = w1 := (Option.some.inj hl').symm
      subst hww
      exact absurd hs' (hc6new hcr' rfl)
  · have hnm : n ≠ m := fun hh => hmn hh.symm
    refine ⟨?_, ⟨w0, ?_, hs0⟩, ?_, ?_, ?_, ?_⟩
    · rw [hw]
      exact keysNodup_setw m w1 hnd
    · rw [hw, lookup_setw_ne _ m n w1 hnm]
      exact hl0
    · rw [hn]
      exact hc1
    · intro w' hl' hs'
      rw [hw, lookup_setw_ne _ m n w1 hnm] at hl'
      rw [hn]
      exact hc2 w' hl' hs'
    · intro ha
      rw [hn]
      exact hc5 (harm ha)
    · intro hcr' w' hl' hs'
      rw [hw, lookup_setw_ne _ m n w1 hnm] at hl'
      rw [hn]
      exact hc6 (hcr hcr') w' hl' hs'

/-- The monitor's write-and-notify step with a string summary. -/
theorem RaceInv_flip_write (n m : String) (S S' : RaceState)
    (h : RaceInv n S) (w1 : Worker) (hw1 : w1.status = "completed")
    (hcnt0 : m = n → S.sys.notifications.count n = 0)
    (hcrS : S.mon ≠ MonState.crashed)
    (hw : S'.sys.workers = setw S.sys.workers m w1)
    (hn : S'.sys.notifications = S.sys.notifications ++ [m])
    (hmon : ¬ MonArmedFor n S'.mon) :
    RaceInv n S' := by
  obtain ⟨hnd, ⟨w0, hl0, hs0⟩, hc1, hc2, hc5, hc6⟩ := h
  by_cases hmn : m = n
  · subst hmn
    have hc0 := hcnt0 rfl
    have hcount : S'.sys.notifications.count m = 1 := by
      rw [hn, List.count_append, hc0]
      simp
    refine ⟨?_, ⟨w1, ?_, ?_⟩, ?_, ?_, ?_, ?_⟩
    · rw [hw]
      exact keysNodup_setw m w1 hnd
    · rw [hw]
      exact lookup_setw_self _ m w1
    · simp [hw1]
    · omega
    · intro w' hl' hs'
      rw [hw, lookup_setw_self] at hl'
      have hww : w' = w1 := (Option.some.inj hl').symm
      subst hww
      rw [hw1] at hs'
      exact absurd hs' (by decide)
    · intro ha
      exact absurd ha hmon
    · intro _ w' _ _
      exact hcount
  · have hnm : n ≠ m := fun hh => hmn hh.symm
    have hcount : S'.sys.notifications.count n =
        S.sys.notifications.count n := by
      rw [hn, List.count_append]
      simp [List.count_cons, beq_iff_eq, hmn]
    refine ⟨?_, ⟨w0, ?_, hs0⟩, ?_, ?_, ?_, ?_⟩
    · rw [hw]
      exact keysNodup_setw m w1 hnd
    · rw [hw, lookup_setw_ne _ m n w1 hnm]
      exact hl0
    · rw [hcount]
      exact hc1
    · intro w' hl' hs'
      rw [hw, lookup_setw_ne _ m n w1 hnm] at hl'
      rw [hcount]
      exact hc2 w' hl' hs'
    · intro ha
      exact absurd ha hmon
    · intro _ w' hl' hs'
      rw [hw, lookup_setw_ne _ m n w1 hnm] at hl'
      rw [hcount]
      exact hc6 hcrS w' hl' hs'

end RaceLemmas

section RaceStep

theorem rstep_inv (n : String) (S : RaceState) (ev : REv)
    (h : RaceInv n S) : RaceInv n (rstep S ev) := by
  cases ev with
  | sweepStart =>
    rcases hm : S.mon with _ | ⟨rest, u⟩ | ⟨m, rest, u⟩ | _
    · refine RaceInv_frame n S _ h ?_ ?_ ?_ ?_
      · simp [rstep, hm]
      · simp [rstep, hm]
      · intro ha
        simp [rstep, hm, MonArmedFor] at ha
      · intro _
        rw [hm]
        simp
    · have he : rstep S .sweepStart = S := by simp [rstep, hm]
      rw [he]
      exact h
    · have he : rstep S .sweepStart = S := by simp [rstep, hm]
      rw [he]
      exact h
    · have he : rstep S .sweepStart = S := by simp [rstep, hm]
      rw [he]
      exact h
  | checkStep alive =>
    rcases hm : S.mon with _ | ⟨rest0, u⟩ | ⟨m, rest, u⟩ | _
    · have he : rstep S (.checkStep alive) = S := by simp [rstep, hm]
      rw [he]
      exact h
    · rcases rest0 with _ | ⟨m, rest⟩
      · have he : rstep S (.checkStep alive) = S := by simp [rstep, hm]
        rw [he]
        exact h
      · rcases hlk : lookup S.sys.workers m with _ | w
        · refine RaceInv_frame n S _ h ?_ ?_ ?_ ?_
          · simp [rstep, hm, hlk]
          · simp [rstep, hm, hlk]
          · intro ha
            simp [rstep, hm, hlk, MonArmedFor] at ha
          · intro _
            rw [hm]
            simp
        · by_cases hg : w.status = "running" ∧ pyTruthy w.pid
          · rcases halive : alive with _ | _
            · refine RaceInv_frame n S _ h ?_ ?_ ?_ ?_
              · simp [rstep, hm, hlk, hg]
              · simp [rstep, hm, hlk, hg]
              · intro ha
                simp [rstep, hm, hlk, hg, MonArmedFor] at ha
                subst ha
                exact h.2.2.2.1 w hlk hg.1
              · intro _
                rw [hm]
                simp
            · refine RaceInv_frame n S _ h ?_ ?_ ?_ ?_
              · simp [rstep, hm, hlk, hg]
              · simp [rstep, hm, hlk, hg]
              · intro ha
                simp [rstep, hm, hlk, hg, MonArmedFor] at ha
              · intro _
                rw [hm]
                simp
          · refine RaceInv_frame n S _ h ?_ ?_ ?_ ?_
            · simp [rstep, hm, hlk, hg]
            · simp [rstep, hm, hlk, hg]
            · intro ha
              simp [rstep, hm, hlk, hg, MonArmedFor] at ha
            · intro _
              rw [hm]
              simp
    · have he : rstep S (.checkStep alive) = S := by simp [rstep, hm]
      rw [he]
      exact h
    · have he : rstep S (.checkStep alive) = S := by simp [rstep, hm]
      rw [he]
      exact h
  | flipStep t fr =>
    rcases hm : S.mon with _ | ⟨rest0, u⟩ | ⟨m, rest, u⟩ | _
    · have he : rstep S (.flipStep t fr) = S := by simp [rstep, hm]
      rw [he]
      exact h
    · have he : rstep S (.flipStep t fr) = S := by simp [rstep, hm]
      rw [he]
      exact h
    · rcases hlk : lookup S.sys.workers m with _ | w
      · refine RaceInv_frame n S _ h ?_ ?_ ?_ ?_
        · simp [rstep, hm, hlk]
        · simp [rstep, hm, hlk]
        · intro ha
          simp [rstep, hm, hlk, MonArmedFor] at ha
        · intro _
          rw [hm]
          simp
      · rcases hx : extract_summary fr with s | v
        · refine RaceInv_flip_write n m S _ h
            ({ w with status := "completed", end_time := some t })
            rfl ?_ ?_ ?_ ?_ ?_
          · intro hmn
            exact h.2.2.2.2.1 (by rw [hm]; exact hmn)
          · rw [hm]
            simp
          · simp [rstep, hm, hlk, hx]
          · simp [rstep, hm, hlk, hx]
          · intro ha
            simp [rstep, hm, hlk, hx, MonArmedFor] at ha
        · refine RaceInv_silent_write n m S _ h
            ({ w with status := "completed", end_time := some t })
            (Or.inl rfl) ?_ ?_ ?_ ?_ ?_
          · simp [rstep, hm, hlk, hx]
          · simp [rstep, hm, hlk, hx]
          · intro ha
            simp [rstep, hm, hlk, hx, MonArmedFor] at ha
          · intro hcr'
            exact absurd (by simp [rstep, hm, hlk, hx]) hcr'
          · intro hcr' _
            exact absurd (by simp [rstep, hm, hlk, hx]) hcr'
    · have he : rstep S (.flipStep t fr) = S := by simp [rstep, hm]
      rw [he]
      exact h
  | sweepEnd =>
    rcases hm : S.mon with _ | ⟨rest0, u⟩ | ⟨m, rest, u⟩ | _
    · have he : rstep S .sweepEnd = S := by simp [rstep, hm]
      rw [he]
      exact h
    · rcases rest0 with _ | ⟨m, rest⟩
      · rcases hu : u with _ | _
        · refine RaceInv_frame n S _ h ?_ ?_ ?_ ?_
          · simp [rstep, hm, hu]
          · simp [rstep, hm, hu]
          · intro ha
            simp [rstep, hm, hu, MonArmedFor] at ha
          · intro _
            rw [hm]
            simp
        · refine RaceInv_frame n S _ h ?_ ?_ ?_ ?_
          · simp [rstep, hm, hu]
          · simp [rstep, hm, hu]
          · intro ha
            simp [rstep, hm, hu, MonArmedFor] at ha
          · intro _
            rw [hm]
            simp
      · have he : rstep S .sweepEnd = S := by simp [rstep, hm]
        rw [he]
        exact h
    · have he : rstep S .sweepEnd = S := by simp [rstep, hm]
      rw [he]
      exact h
    · have he : rstep S .sweepEnd = S := by simp [rstep, hm]
      rw [he]
      exact h
  | killStart m =>
    rcases hk : S.kil with _ | m0
    · rcases hlk : lookup S.sys.workers m with _ | w
      · have he : rstep S (.killStart m) = S := by simp [rstep, hk, hlk]
        rw [he]
        exact h
      · by_cases hg : w.status ≠ "running" ∨ w.pid.getD 0 = 0
        · have he : rstep S (.killStart m) = S := by simp [rstep, hk, hlk, hg]
          rw [he]
          exact h
        · refine RaceInv_frame n S _ h ?_ ?_ ?_ ?_
          · simp [rstep, hk, hlk, hg]
          · simp [rstep, hk, hlk, hg]
          · intro ha
            exact h.2.2.2.2.1 (by simpa [rstep, hk, hlk, hg] using ha)
          · intro h'
            simpa [rstep, hk, hlk, hg] using h'
    · have he : rstep S (.killStart m) = S := by simp [rstep, hk]
      rw [he]
      exact h
  | killFinish alive t =>
    rcases hk : S.kil with _ | m
    · have he : rstep S (.killFinish alive t) = S := by simp [rstep, hk]
      rw [he]
      exact h
    · rcases hlk : lookup S.sys.workers m with _ | w
      · refine RaceInv_frame n S _ h ?_ ?_ ?_ ?_
        · simp [rstep, hk, hlk]
        · simp [rstep, hk, hlk]
        · intro ha
          exact h.2.2.2.2.1 (by simpa [rstep, hk, hlk] using ha)
        · intro h'
          simpa [rstep, hk, hlk] using h'
      · rcases halive : alive with _ | _
        · refine RaceInv_silent_write n m S _ h
            ({ w with status := "dead", end_time := some t })
            (Or.inr (Or.inr rfl)) ?_ ?_ ?_ ?_ ?_
          · simp [rstep, hk, hlk]
          · simp [rstep, hk, hlk]
          · intro ha
            simpa [rstep, hk, hlk] using ha
          · intro h'
            simpa [rstep, hk, hlk] using h'
          · intro _ _
            simp
        · refine RaceInv_silent_write n m S _ h
            ({ w with status := "killed", end_time := some t })
            (Or.inr (Or.inl rfl)) ?_ ?_ ?_ ?_ ?_
          · simp [rstep, hk, hlk]
          · simp [rstep, hk, hlk]
          · intro ha
            simpa [rstep, hk, hlk] using ha
          · intro h'
            simpa [rstep, hk, hlk] using h'
          · intro _ _
            simp

theorem runRace_inv (n : String) (evs : List REv) (S : RaceState)
    (h : RaceInv n S) : RaceInv n (runRace evs S) := by
  induction evs generalizing S with
  | nil => simpa [runRace] using h
  | cons ev rest ih =>
    rw [runRace, List.foldl_cons]
    exact ih (rstep S ev) (rstep_inv n S ev h)

end RaceStep

/-- A configuration holding the running worker t1 with both threads
idle. -/
def sRun : RaceState := { sys := stRun, mon := .idle, kil := .kidle }

/-- Schedule: the kill runs to completion before the monitor looks. -/
def schedKillWins : List REv :=
  [REv.killStart "t1", REv.killFinish false 50, REv.sweepStart,
    REv.checkStep false, REv.sweepEnd]

/-- Schedule: both guards observe the dead process; the kill writes
first, then the monitor's flip overwrites and notifies. -/
def schedKillWriteFirst : List REv :=
  [REv.killStart "t1", REv.sweepStart, REv.checkStep false,
    REv.killFinish false 50, REv.flipStep 55 (FileRead.content (("ok").data))]

/-- Schedule: both guards observe the dead process; the monitor flips
and notifies first, then the kill's except branch overwrites to dead. -/
def schedFlipFirst : List REv :=
  [REv.killStart "t1", REv.sweepStart, REv.checkStep false,
    REv.flipStep 55 (FileRead.content (("ok").data)), REv.killFinish false 60]

/-- Counterexample to C1 as stated, on three interleavings of the
unlocked threads.  (1) The kill completes before the monitor looks: the
record lands in dead — not killed, though the kill path won — and zero
notifications are dispatched, not exactly one.  (2) Both paths observe
the dead process and the kill writes dead first, but the monitor's
pending flip overwrites it to completed: the final status does not
reflect the path that flipped the record out of running.  (3) Both paths
observe the dead process, the monitor flips to completed and notifies,
and the kill then overwrites to dead: one notification was dispatched
for a record whose final status is dead. -/
theorem kill_monitor_race_cex :
    ((∃ w, lookup (runRace schedKillWins sRun).sys.workers "t1" = some w ∧
        w.status = "dead") ∧
      (runRace schedKillWins sRun).sys.notifications.count "t1" = 0 ∧
      ¬ (runRace schedKillWins sRun).sys.notifications.count "t1" = 1) ∧
    ((∃ w, lookup (runRace schedKillWriteFirst sRun).sys.workers "t1" =
        some w ∧ w.status = "completed") ∧
      (runRace schedKillWriteFirst sRun).sys.notifications.count "t1" = 1) ∧
    ((∃ w, lookup (runRace schedFlipFirst sRun).sys.workers "t1" = some w ∧
        w.status = "dead") ∧
      (runRace schedFlipFirst sRun).sys.notifications.count "t1" = 1) :=
  ⟨⟨⟨{ wRun with status := "dead", end_time := some 50 }, rfl, rfl⟩,
      rfl, by decide⟩,
   ⟨⟨{ wRun with status := "completed", end_time := some 55 }, rfl, rfl⟩, rfl⟩,
   ⟨⟨{ wRun with status := "dead", end_time := some 60 }, rfl, rfl⟩, rfl⟩⟩

/-- C1 amended: under every interleaving of the unlocked kill and
monitor threads (each split at its real suspension points), completion
handling for a running worker never double-fires: at most one
notification is ever dispatched for it; a record still reading running
has never been notified about; and a record reading completed has been
notified exactly once, unless the monitor thread died in its completion
pipeline.  No correlation between a killed/dead status and the
notification count survives the race: the kill can overwrite an
already-notified completed record (see the counterexample), so the
original claim's mapping from the winning path to the final status and
its exactly-one-notification guarantee both fail. -/
theorem kill_monitor_race_amended (evs : List REv) (n : String)
    (S0 : RaceState) (w0 : Worker) (hnd : keysNodup S0.sys.workers)
    (h0 : lookup S0.sys.workers n = some w0) (hrun : w0.status = "running")
    (hcnt : S0.sys.notifications.count n = 0) :
    (runRace evs S0).sys.notifications.count n ≤ 1 ∧
    ∀ w, lookup (runRace evs S0).sys.workers n = some w →
      w.status ∈ (["running", "completed", "killed", "dead"] : List String) ∧
      (w.status = "running" →
        (runRace evs S0).sys.notifications.count n = 0) ∧
      (w.status = "completed" → (runRace evs S0).mon ≠ MonState.crashed →
        (runRace evs S0).sys.notifications.count n = 1) := by
  have hinv0 : RaceInv n S0 := by
    refine ⟨hnd, ⟨w0, h0, by rw [hrun]; decide⟩, by omega, ?_, ?_, ?_⟩
    · intro w _ _
      exact hcnt
    · intro _
      exact hcnt
    · intro _ w hl hs
      rw [h0] at hl
      have hww : w0 = w := Option.some.inj hl
      rw [← hww, hrun] at hs
      exact absurd hs (by decide)
  obtain ⟨hnd', ⟨w1, hl1, hs1⟩, hc1, hc2, hc5, hc6⟩ :=
    runRace_inv n evs S0 hinv0
  refine ⟨hc1, ?_⟩
  intro w hlw
  have hww : w1 = w := by
    rw [hl1] at hlw
    exact Option.some.inj hlw
  subst hww
  exact ⟨hs1, fun hs => hc2 w1 hl1 hs, fun hs hcr => hc6 hcr w1 hl1 hs⟩

/-- Witness for C1 amended, on the schedule where the monitor flips and
notifies first and the kill then overwrites the record to dead. -/
theorem kill_monitor_race_amended_witness :
    (runRace schedFlipFirst sRun).sys.notifications.count "t1" ≤ 1 ∧
    ∀ w, lookup (runRace schedFlipFirst sRun).sys.workers "t1" = some w →
      w.status ∈ (["running", "completed", "killed", "dead"] : List String) ∧
      (w.status = "running" →
        (runRace schedFlipFirst sRun).sys.notifications.count "t1" = 0) ∧
      (w.status = "completed" →
        (runRace schedFlipFirst sRun).mon ≠ MonState.crashed →
        (runRace schedFlipFirst sRun).sys.notifications.count "t1" = 1) :=
  kill_monitor_race_amended schedFlipFirst "t1" sRun wRun
    (by unfold keysNodup; decide) rfl rfl rfl

section SummaryLemmas

theorem numTypeName_bound (raw : List Char) : (numTypeName raw).length ≤ 8 := by
  unfold numTypeName
  split <;> decide

theorem lenErr_bound {t : List Char} (h : t.length ≤ 8) :
    (lenErr t).length ≤ 60 := by
  have h1 : (("object of type ").data).length = 15 := rfl
  have h2 : ((" has no len()").data).length = 13 := rfl
  simp [lenErr, List.length_append, h1, h2]
  omega

theorem notIterableErr_bound {t : List Char} (h : t.length ≤ 8) :
    (notIterableErr t).length ≤ 60 := by
  have h1 : (("argument of type ").data).length = 17 := rfl
  have h2 : ((" is not iterable").data).length = 16 := rfl
  simp [notIterableErr, List.length_append, h1, h2]
  omega

theorem pyInResult_err_bound (v : JVal) (msg : List Char)
    (h : pyInResult v = .error msg) : msg.length ≤ 60 := by
  cases v with
  | jobj fields => simp [pyInResult] at h
  | jstr s => simp [pyInResult] at h
  | jarr xs => simp [pyInResult] at h
  | jnum raw =>
    simp [pyInResult] at h
    rw [← h]
    exact notIterableErr_bound (numTypeName_bound raw)
  | jbool b =>
    simp [pyInResult] at h
    rw [← h]
    exact notIterableErr_bound (by decide)
  | jnull =>
    simp [pyInResult] at h
    rw [← h]
    exact notIterableErr_bound (by decide)

theorem getResultValue_err_bound (v : JVal) (msg : List Char)
    (h : getResultValue v = .error msg) : msg.length ≤ 60 := by
  cases v with
  | jobj fields =>
    simp only [getResultValue] at h
    rcases hg : objGet fields (("result").data) with _ | w
    · rw [hg] at h
      simp at h
      rw [← h]
      decide
    · rw [hg] at h
      simp at h
  | jstr s =>
    simp [getResultValue] at h
    rw [← h]
    decide
  | jarr xs =>
    simp [getResultValue] at h
    rw [← h]
    decide
  | jnum raw =>
    simp [getResultValue] at h
    rw [← h]
    exact notIterableErr_bound (numTypeName_bound raw)
  | jbool b =>
    simp [getResultValue] at h
    rw [← h]
    exact notIterableErr_bound (by decide)
  | jnull =>
    simp [getResultValue] at h
    rw [← h]
    exact notIterableErr_bound (by decide)

theorem scanLine_cases (l : List Char) :
    scanLine l = .skip ∨
    (∃ s, scanLine l = .ret (.str s) ∧ s.length ≤ 303) ∨
    (∃ v, scanLine l = .ret (.nonStr v)) ∨
    (∃ msg, scanLine l = .err msg ∧ msg.length ≤ 60) := by
  by_cases h1 : hasSubstr l resultMarker = true
  case neg =>
    left
    simp [scanLine, h1]
  case pos =>
    rcases hj : jsonLoads l with _ | data
    · left
      simp [scanLine, h1, hj]
    · rcases hin : pyInResult data with msg | b
      · right; right; right
        refine ⟨msg, ?_, pyInResult_err_bound data msg hin⟩
        simp [scanLine, h1, hj, hin]
      · rcases b with _ | _
        · left
          simp [scanLine, h1, hj, hin]
        · rcases hv : getResultValue data with msg | v
          · right; right; right
            refine ⟨msg, ?_, getResultValue_err_bound data msg hv⟩
            simp [scanLine, h1, hj, hin, hv]
          · rcases v with _ | b | raw | s | xs | fs
            · right; right; right
              refine ⟨lenErr (("NoneType").data), ?_, by decide⟩
              simp [scanLine, h1, hj, hin, hv]
            · right; right; right
              refine ⟨lenErr (("bool").data), ?_, by decide⟩
              simp [scanLine, h1, hj, hin, hv]
            · right; right; right
              refine ⟨_, ?_, lenErr_bound (numTypeName_bound raw)⟩
              simp [scanLine, h1, hj, hin, hv]
            · right; left
              by_cases h3 : 300 < s.length
              · refine ⟨s.take 300 ++ ellipsis, ?_, ?_⟩
                · simp [scanLine, h1, hj, hin, hv, h3]
                · have ht : (s.take 300).length ≤ 300 := by
                    rw [List.length_take]
                    omega
                  rw [List.length_append]
                  have he : ellipsis.length = 3 := rfl
                  omega
              · refine ⟨s, ?_, by omega⟩
                simp [scanLine, h1, hj, hin, hv, h3]
            · by_cases h3 : 300 < xs.length
              · right; right; right
                refine ⟨concatListErr, ?_, by decide⟩
                simp [scanLine, h1, hj, hin, hv, h3]
              · right; right; left
                refine ⟨.jarr xs, ?_⟩
                simp [scanLine, h1, hj, hin, hv, h3]
            · by_cases h3 : 300 < fs.length
              · right; right; right
                refine ⟨sliceDictErr, ?_, by decide⟩
                simp [scanLine, h1, hj, hin, hv, h3]
              · right; right; left
                refine ⟨.jobj fs, ?_⟩
                simp [scanLine, h1, hj, hin, hv, h3]

theorem fallbackSummary_bound (lines : List (List Char)) (s : List Char)
    (h : fallbackSummary lines = .str s) : s.length ≤ 200 := by
  unfold fallbackSummary at h
  have hs : s = (joinNl (lastN 5 ((lastN 20 lines).filter
      (fun l => decide (pyStrip l ≠ []) &&
        ! (("2026-").data.isPrefixOf l))))).take 200 := by
    cases h
    rfl
  rw [hs, List.length_take]
  omega

theorem scanLoop_str_bound (lines : List (List Char)) :
    ∀ (rest : List (List Char)) (s : List Char),
      scanLoop lines rest = .str s → s.length ≤ 303 := by
  intro rest
  induction rest with
  | nil =>
    intro s h
    have hb := fallbackSummary_bound lines s (by simpa [scanLoop] using h)
    omega
  | cons l rest ih =>
    intro s h
    rcases scanLine_cases l with hc | ⟨s', hc, hb⟩ | ⟨v, hc⟩ | ⟨msg, hc, hb⟩
    · rw [scanLoop, hc] at h
      exact ih s h
    · rw [scanLoop, hc] at h
      cases h
      omega
    · rw [scanLoop, hc] at h
      cases h
    · rw [scanLoop, hc] at h
      cases h
      have hp : errPrefix.length = 22 := rfl
      rw [List.length_append]
      omega

theorem pyStrip_length_le (s : List Char) : (pyStrip s).length ≤ s.length := by
  unfold pyStrip
  calc ((s.dropWhile pyIsSpace).reverse.dropWhile pyIsSpace).reverse.length
      = ((s.dropWhile pyIsSpace).reverse.dropWhile pyIsSpace).length := by
        rw [List.length_reverse]
    _ ≤ (s.dropWhile pyIsSpace).reverse.length :=
        (List.dropWhile_sublist _).length_le
    _ = (s.dropWhile pyIsSpace).length := by rw [List.length_reverse]
    _ ≤ s.length := (List.dropWhile_sublist _).length_le

theorem scanLoop_skip_prefix (lines : List (List Char)) :
    ∀ (L1 L2 : List (List Char)), (∀ x ∈ L1, scanLine x = .skip) →
      scanLoop lines (L1 ++ L2) = scanLoop lines L2 := by
  intro L1
  induction L1 with
  | nil => intro L2 _; rfl
  | cons l rest ih =>
    intro L2 hskip
    rw [List.cons_append, scanLoop, hskip l (List.mem_cons_self _ _)]
    exact ih L2 (fun x hx => hskip x (List.mem_cons_of_mem _ hx))

theorem objGet_some_any {fs : List (List Char × JVal)} {k : List Char}
    {v : JVal} (h : objGet fs k = some v) :
    fs.any (fun f => f.1 = k) = true := by
  induction fs with
  | nil => simp [objGet] at h
  | cons f rest ih =>
    obtain ⟨k1, v1⟩ := f
    by_cases hk : k1 = k
    · simp [List.any_cons, hk]
    · rw [objGet, if_neg hk] at h
      simp [List.any_cons, ih h]

theorem scanLine_found (l : List Char) (fs : List (List Char × JVal))
    (s : List Char) (hsub : hasSubstr l resultMarker = true)
    (hparse : jsonLoads l = some (.jobj fs))
    (hget : objGet fs (("result").data) = some (.jstr s)) :
    scanLine l = .ret (.str
      (if 300 < s.length then s.take 300 ++ ellipsis else s)) := by
  have hin : pyInResult (.jobj fs) = .ok true := by
    simp [pyInResult, objGet_some_any hget]
  have hv : getResultValue (.jobj fs) = .ok (.jstr s) := by
    simp [getResultValue, hget]
  simp [scanLine, hsub, hparse, hin, hv]

end SummaryLemmas

/-- The line used to refute C7 as stated: it parses as a JSON object with
a result field, but the space before the colon defeats the raw substring
pre-check of runner.py line 264. -/
def cexLine : List Char := ("\x7b\"result\" : \"Done\"\x7d").data

/-- Counterexample to C7 as stated: the log consisting of the single line
with a space before the colon parses as a JSON object whose result field
is "Done", yet the summarizer does not return "Done": it never attempts
the parse (the line lacks the raw marker) and falls back to returning the
whole line. -/
theorem summary_extraction_cex :
    jsonLoads cexLine =
      some (.jobj [((("result").data), .jstr (("Done").data))]) ∧
    extract_summary (.content cexLine) = .str cexLine ∧
    extract_summary (.content cexLine) ≠ .str (("Done").data) := by
  refine ⟨rfl, rfl, ?_⟩
  intro h
  have h0 : PySummary.str cexLine = PySummary.str (("Done").data) := by
    calc PySummary.str cexLine = extract_summary (.content cexLine) := rfl
      _ = .str (("Done").data) := h
  injection h0 with h4
  exact absurd h4 (by decide)

/-- C7 amended: the primary strategy requires the raw substring
"result": to occur in the line before any parse is attempted.  Scanning
from the end, if the first line carrying that substring parses as a JSON
object whose result field is a string s (all later lines falling
through), the summarizer returns s truncated to 300 characters with an
ellipsis marker when longer; if every line falls through, it takes the
last 20 lines, drops blank lines and lines starting with the timestamp
prefix, joins the final 5 remaining lines, and truncates to 200. -/
theorem summary_extraction_amended :
    (∀ (text : List Char) (pre post : List (List Char)) (l : List Char)
      (fs : List (List Char × JVal)) (s : List Char),
      pySplitNl text = pre ++ l :: post →
      hasSubstr l resultMarker = true →
      jsonLoads l = some (.jobj fs) →
      objGet fs (("result").data) = some (.jstr s) →
      (∀ l2 ∈ post, scanLine l2 = ScanOut.skip) →
      extract_summary (.content text) =
        .str (if 300 < s.length then s.take 300 ++ ellipsis else s)) ∧
    (∀ text : List Char,
      (∀ l ∈ pySplitNl text, scanLine l = ScanOut.skip) →
      extract_summary (.content text) =
        .str ((joinNl (lastN 5 ((lastN 20 (pySplitNl text)).filter
          (fun l => decide (pyStrip l ≠ []) &&
            ! (("2026-").data.isPrefixOf l))))).take 200)) := by
  constructor
  · intro text pre post l fs s hsplit hsub hparse hget hpost
    show scanLoop (pySplitNl text) (pySplitNl text).reverse = _
    have hrev : (pre ++ l :: post).reverse =
        post.reverse ++ l :: pre.reverse := by
      rw [List.reverse_append, List.reverse_cons, List.append_assoc,
        List.singleton_append]
    rw [hsplit, hrev, scanLoop_skip_prefix _ post.reverse _
      (fun x hx => hpost x (List.mem_reverse.mp hx))]
    rw [scanLoop, scanLine_found l fs s hsub hparse hget]
  · intro text hskip
    show scanLoop (pySplitNl text) (pySplitNl text).reverse = _
    have hall := scanLoop_skip_prefix (pySplitNl text)
      (pySplitNl text).reverse []
      (fun x hx => hskip x (List.mem_reverse.mp hx))
    rw [List.append_nil] at hall
    rw [hall]
    rfl

/-- Witness for C7 amended: a log whose last line is a structured result
record yields "Done"; a log of one plain line yields the fallback. -/
theorem summary_extraction_amended_witness :
    extract_summary (.content (("x\n\x7b\"result\":\"Done\"\x7d").data)) =
      .str (if 300 < (("Done").data).length
        then (("Done").data).take 300 ++ ellipsis else ("Done").data) ∧
    extract_summary (.content (("hello").data)) =
      .str ((joinNl (lastN 5 ((lastN 20 (pySplitNl (("hello").data))).filter
        (fun l => decide (pyStrip l ≠ []) &&
          ! (("2026-").data.isPrefixOf l))))).take 200) := by
  constructor
  · exact summary_extraction_amended.1 _ [("x").data] []
      (("\x7b\"result\":\"Done\"\x7d").data)
      [((("result").data), .jstr (("Done").data))] (("Done").data)
      rfl rfl rfl rfl (fun l2 h => absurd h (List.not_mem_nil _))
  · refine summary_extraction_amended.2 _ ?_
    intro l h
    have he : pySplitNl (("hello").data) = [("hello").data] := rfl
    rw [he] at h
    have hl := List.mem_singleton.mp h
    rw [hl]
    rfl

/-- C8 amended: the summarizer never propagates a read error; a missing
file yields the fixed "No output captured" placeholder, while an
unreadable file yields an "Error reading output: " message carrying the
exception text (not the fixed placeholder). -/
theorem summarizer_never_raises_amended :
    extract_summary FileRead.missing = .str noOutput ∧
    ∀ e, extract_summary (.unreadable e) = .str (errPrefix ++ e) :=
  ⟨rfl, fun _ => rfl⟩

/-- Counterexample to C8 as stated: an unreadable (rather than missing)
file does not produce the fixed "no output" placeholder; it produces an
error string that varies with the exception message, so no fixed
placeholder is returned on that path. -/
theorem summarizer_placeholder_cex :
    extract_summary (.unreadable (("Permission denied").data)) ≠
      .str noOutput ∧
    extract_summary (.unreadable (("A").data)) ≠
      extract_summary (.unreadable (("B").data)) := by
  constructor
  · intro h
    have h0 : PySummary.str (errPrefix ++ ("Permission denied").data) =
        PySummary.str noOutput := by
      calc PySummary.str (errPrefix ++ ("Permission denied").data)
          = extract_summary (.unreadable (("Permission denied").data)) := rfl
        _ = .str noOutput := h
    injection h0 with h4
    exact absurd h4 (by decide)
  · intro h
    have h0 : PySummary.str (errPrefix ++ ("A").data) =
        PySummary.str (errPrefix ++ ("B").data) := by
      calc PySummary.str (errPrefix ++ ("A").data)
          = extract_summary (.unreadable (("A").data)) := rfl
        _ = extract_summary (.unreadable (("B").data)) := h
        _ = PySummary.str (errPrefix ++ ("B").data) := rfl
    injection h0 with h4
    exact absurd h4 (by decide)

/-- C9: for every log file content, whenever the dispatcher builds a
message embedding the summary, the embedded summary text after the
formatting step (strip, then truncate at 500) is at most 500 characters.
In fact every summary the scanner or fallback produces is at most 303
characters, so the 500-truncation never even fires. -/
theorem bounded_digest (text s' : List Char)
    (h : embedded_summary (extract_summary (.content text)) = some s') :
    s'.length ≤ 500 := by
  rcases hx : extract_summary (.content text) with s | v
  · have hb : s.length ≤ 303 :=
      scanLoop_str_bound (pySplitNl text) (pySplitNl text).reverse s hx
    rw [hx] at h
    simp only [embedded_summary] at h
    have hps : (pyStrip s).length ≤ 303 :=
      le_trans (pyStrip_length_le s) hb
    have hcc : clean_summary s = pyStrip s := by
      unfold clean_summary
      rw [if_neg (by omega)]
    by_cases hc : clean_summary s ≠ [] ∧ clean_summary s ≠ noOutput
    · rw [if_pos hc] at h
      rw [← Option.some.inj h, hcc]
      omega
    · rw [if_neg hc] at h
      simp at h
  · rw [hx] at h
    simp [embedded_summary] at h

/-- Witness for C9: a concrete log whose summary is embedded, with the
bound holding. -/
theorem bounded_digest_witness :
    embedded_summary (extract_summary (.content (("hi there").data))) =
      some (("hi there").data) ∧ (("hi there").data).length ≤ 500 :=
  ⟨rfl, bounded_digest (("hi there").data) (("hi there").data) rfl⟩


end Blaude
